import Mathlib

/-!
# Keystroke-timing tracker and keyprint client

A shallow embedding of `src/composables/useTypingTracker.js` and
`src/services/api.js`.

Conventions of the embedding.

* `Date.now()` yields integer milliseconds; a clock reading is an `Int` that
  is passed to `handleKeyPress` explicitly.
* A Vue `ref` is a field of the state record; a `computed` is a function of
  that record.
* A JavaScript `Number` is an IEEE-754 binary64 value.  Clock readings and
  their gaps are integers, which the subtraction of line 45 yields exactly.  The
  sums, the quotients and the product of lines 62, 68 and 82-83 are rounded to
  the nearest double, ties to even, by `roundDouble`; a finite double is the
  rational number it denotes and `NaN` is `none`.
-/

set_option autoImplicit false

namespace TypingTracker

/-! ## Data model -/

/-- The part of a DOM keyboard event that `handleKeyPress` reads: `event.key`. -/
structure KeyEvent where
  key : String
deriving DecidableEq, Repr

/-- The six refs declared in `useTypingTracker` (lines 5-10).  `startTime` and
`endTime` hold `null` (`none`) or a number. -/
structure Tracker where
  intervals : List Int
  anomalies : List Nat
  keyTimes : List Int
  backspaceCount : Nat
  startTime : Option Int
  endTime : Option Int
deriving DecidableEq, Repr

/-- The state built by the ref declarations of `useTypingTracker`. -/
def useTypingTracker : Tracker :=
  { intervals := [], anomalies := [], keyTimes := [], backspaceCount := 0,
    startTime := none, endTime := none }

/-- The constant of line 13: `ANOMALY_THRESHOLD = 2.5`. -/
def ANOMALY_THRESHOLD : ℚ := 5 / 2

/-- JavaScript `!v` for a value that is `null` or an integer number: `null`
and `0` are falsy, every other integer is truthy. -/
def isFalsy : Option Int → Bool
  | none => true
  | some t => t == 0

/-! ## Operations -/

/-- Lines 16-23: every ref is assigned its initial value. -/
def resetTracking (_s : Tracker) : Tracker :=
  { intervals := [], anomalies := [], keyTimes := [], backspaceCount := 0,
    startTime := none, endTime := none }

/-! ### Double arithmetic -/

/-- The auxiliary recursion of `natLog2`: at most `fuel` halvings. -/
def log2Fuel : Nat → Nat → Nat
  | 0, _ => 0
  | fuel + 1, n => if n < 2 then 0 else log2Fuel fuel (n / 2) + 1

/-- The position of the leading bit of a natural number: `floor(log2 n)` for
`n ≥ 1`, and 0 for `n = 0`. -/
def natLog2 (n : Nat) : Nat := log2Fuel n n

/-- The power `2 ^ e` for an integer exponent. -/
def pow2 (e : Int) : ℚ :=
  if 0 ≤ e then ((2 ^ e.toNat : Nat) : ℚ) else 1 / ((2 ^ (-e).toNat : Nat) : ℚ)

/-- The binary exponent of a non-zero rational: the `e` with
`2 ^ e ≤ |x| < 2 ^ (e + 1)`. -/
def ilog2 (x : ℚ) : Int :=
  if pow2 ((natLog2 x.num.natAbs : Int) - (natLog2 x.den : Int)) ≤ |x| then
    (natLog2 x.num.natAbs : Int) - (natLog2 x.den : Int)
  else (natLog2 x.num.natAbs : Int) - (natLog2 x.den : Int) - 1

/-- The nearest integer, the even one of the two when they are equally near. -/
def roundHalfEven (y : ℚ) : Int :=
  if y - (⌊y⌋ : ℚ) < 1 / 2 then ⌊y⌋
  else if 1 / 2 < y - (⌊y⌋ : ℚ) then ⌊y⌋ + 1
  else if ⌊y⌋ % 2 = 0 then ⌊y⌋ else ⌊y⌋ + 1

/-- The result of a JavaScript arithmetic operation whose exact value is `x`:
the nearest IEEE-754 binary64 value, ties to even.  The significand has 53 bits,
so the spacing at binary exponent `e` is `2 ^ (e - 52)`; below the smallest
normal exponent `-1022` the spacing stays `2 ^ (-1074)`.  Results of magnitude
`2 ^ 1024` or more, which JavaScript turns into `Infinity`, do not arise from
gaps of clock readings and are not modelled: the exponent is unbounded above. -/
def roundDouble (x : ℚ) : ℚ :=
  if x = 0 then 0
  else
    (roundHalfEven (x / pow2 (max (ilog2 x) (-1022) - 52)) : ℚ)
      * pow2 (max (ilog2 x) (-1022) - 52)

/-- The value of `xs.reduce((sum, val) => sum + val, 0)` (lines 62 and 82): every
addition is rounded. -/
def sumIntervals (xs : List Int) : ℚ :=
  xs.foldl (fun (sum : ℚ) (val : Int) => roundDouble (sum + (val : ℚ))) 0

/-- Line 62: `prevIntervals.reduce((sum, val) => sum + val, 0) / prevIntervals.length`.
The quotient is `NaN` (`none`) exactly when `prevIntervals` is empty: the sum is
then `0` and `0 / 0` is `NaN`. -/
def average (prevIntervals : List Int) : Option ℚ :=
  if prevIntervals.length = 0 then none
  else some (roundDouble (sumIntervals prevIntervals / (prevIntervals.length : ℚ)))

/-- Line 68: `lastInterval > avg * ANOMALY_THRESHOLD`, the product rounded.  A
comparison with `NaN` or with `undefined` is `false`. -/
def exceedsThreshold (lastInterval : Option Int) (avg : Option ℚ) : Bool :=
  match lastInterval, avg with
  | some l, some a => decide ((l : ℚ) > roundDouble (a * ANOMALY_THRESHOLD))
  | _, _ => false

/-- Lines 59-72. `slice(0, -1)` is `dropLast`; `intervals[length - 1]` is
`getLast?` (`undefined` on an empty array). -/
def detectAnomalies (s : Tracker) : Tracker :=
  let prevIntervals := s.intervals.dropLast
  let avg := average prevIntervals
  let lastInterval := s.intervals.getLast?
  if exceedsThreshold lastInterval avg then
    { s with anomalies := s.anomalies ++ [s.intervals.length - 1] }
  else s

/-- Lines 26-56, statement by statement; `currentTime` is the value returned
by `Date.now()` on line 27. -/
def handleKeyPress (s : Tracker) (event : KeyEvent) (currentTime : Int) : Tracker :=
  -- lines 30-32
  let s1 := if isFalsy s.startTime then { s with startTime := some currentTime } else s
  -- line 35
  let s2 := { s1 with endTime := some currentTime }
  -- lines 38-40
  let s3 := if event.key = "Backspace" then { s2 with backspaceCount := s2.backspaceCount + 1 } else s2
  -- lines 43-52
  let s4 :=
    match s3.keyTimes.getLast? with
    | some lastKeyTime =>
      let interval := currentTime - lastKeyTime
      let s5 := { s3 with intervals := s3.intervals ++ [interval] }
      if s5.intervals.length > 3 then detectAnomalies s5 else s5
    | none => s3
  -- line 55
  { s4 with keyTimes := s4.keyTimes ++ [currentTime] }

/-- A sequence of `handleKeyPress` calls, each with its event and clock reading. -/
def pressAll (s : Tracker) (evs : List (KeyEvent × Int)) : Tracker :=
  evs.foldl (fun acc e => handleKeyPress acc e.1 e.2) s

/-! ## Computed values -/

/-- Lines 75-78. -/
def duration (s : Tracker) : Int :=
  if isFalsy s.startTime || isFalsy s.endTime then 0
  else
    match s.startTime, s.endTime with
    | some st, some en => en - st
    | _, _ => 0

/-- The function `Math.round` on the value `x` of a double: the integer closest
to `x`, the one closer to `+∞` when two are equally close. -/
def Math_round (x : ℚ) : Int :=
  if x - (⌊x⌋ : ℚ) < 1 / 2 then ⌊x⌋ else ⌊x⌋ + 1

/-- Lines 80-84: `Math.round` of the rounded quotient of the rounded sum. -/
def averageInterval (s : Tracker) : Int :=
  if s.intervals.length = 0 then 0
  else
    let sum : ℚ := sumIntervals s.intervals
    Math_round (roundDouble (sum / (s.intervals.length : ℚ)))

/-! ## Auxiliary definitions used in the statements -/

/-- The interval that a key press at `currentTime` appends: none on the first
recorded sample, the gap to the last sample otherwise. -/
def newInterval (keyTimes : List Int) (currentTime : Int) : List Int :=
  match keyTimes.getLast? with
  | some lastKeyTime => [currentTime - lastKeyTime]
  | none => []

/-- The gaps between consecutive entries of a list of clock readings. -/
def gaps (ts : List Int) : List Int :=
  List.zipWith (fun a b => b - a) ts ts.tail

/-- The object of lines 88-92 with its fields read out as values. -/
structure Metrics where
  intervals : List Int
  duration : Int
  backspaceCount : Nat
deriving DecidableEq, Repr

/-- Lines 87-93, value view: the current contents of `intervals.value`, the
current `duration` and the current `backspaceCount`. -/
def metricsJson (s : Tracker) : Metrics :=
  { intervals := s.intervals, duration := duration s, backspaceCount := s.backspaceCount }

/-- The text `JSON.stringify(xs, null, 2)` for an array of integers that is the value
of a top-level property: `[]` when empty, one element per line at indentation 4
otherwise. -/
def stringifyIntervals (xs : List Int) : String :=
  if xs.isEmpty then "[]"
  else "[\n" ++ ",\n".intercalate (xs.map fun x => "    " ++ toString x) ++ "\n  ]"

/-- Lines 96-98: `JSON.stringify(metricsJson.value, null, 2)`, keys in insertion
order `intervals`, `duration`, `backspaceCount`. -/
def formattedJson (s : Tracker) : String :=
  "\x7b\n  \"intervals\": " ++ stringifyIntervals (metricsJson s).intervals ++
  ",\n  \"duration\": " ++ toString (metricsJson s).duration ++
  ",\n  \"backspaceCount\": " ++ toString (metricsJson s).backspaceCount ++ "\n\x7d"

/-- The values of the object returned on lines 111-122, read at one state
(the three functions of that object are `handleKeyPress`, `resetTracking` and
`copyMetrics`). -/
structure Exposed where
  intervals : List Int
  anomalies : List Nat
  backspaceCount : Nat
  duration : Int
  averageInterval : Int
  metricsJson : Metrics
  formattedJson : String
deriving DecidableEq, Repr

/-- Reading every exposed value of a tracker. -/
def exposed (s : Tracker) : Exposed :=
  { intervals := s.intervals, anomalies := s.anomalies, backspaceCount := s.backspaceCount,
    duration := duration s, averageInterval := averageInterval s,
    metricsJson := metricsJson s, formattedJson := formattedJson s }

/-! ## Array identity

`intervals.value.push(interval)` (line 46) mutates the array object held by the
ref in place, `intervals.value = []` (line 17) makes the ref hold a new array
object, and `metricsJson` (line 89) stores the array object held by the ref.
To tell a copy from the same array, a session keeps every `intervals` array
object ever held by the ref: the arrays replaced by `resetTracking`, in order
of allocation, and the one currently held, whose reference is the number of
replaced arrays. -/

/-- A tracker together with the `intervals` arrays that `resetTracking` has
replaced.  The array of reference `detached.length` is `tracker.intervals`. -/
structure Session where
  detached : List (List Int)
  tracker : Tracker
deriving DecidableEq, Repr

/-- The object of lines 88-92: `intervals` is a reference to an array object,
`duration` and `backspaceCount` are numbers. -/
structure MetricsRef where
  intervals : Nat
  duration : Int
  backspaceCount : Nat
deriving DecidableEq, Repr

namespace Session

/-- A freshly constructed tracker: one empty array, held by the ref. -/
def useTypingTracker : Session :=
  { detached := [], tracker := TypingTracker.useTypingTracker }

/-- The key press of lines 26-56: the push of line 46 goes to the array held by
the ref, which stays the same object. -/
def handleKeyPress (h : Session) (event : KeyEvent) (currentTime : Int) : Session :=
  { h with tracker := TypingTracker.handleKeyPress h.tracker event currentTime }

/-- The reset of lines 16-23: line 17 makes the ref hold a new empty array; the
old array keeps its contents. -/
def resetTracking (h : Session) : Session :=
  { detached := h.detached ++ [h.tracker.intervals],
    tracker := TypingTracker.resetTracking h.tracker }

/-- A sequence of key presses. -/
def pressAll (h : Session) (evs : List (KeyEvent × Int)) : Session :=
  evs.foldl (fun acc e => acc.handleKeyPress e.1 e.2) h

/-- Reading `metricsJson.value` (lines 87-93): the object built, and the session
after the read. -/
def metricsJson (h : Session) : MetricsRef × Session :=
  ({ intervals := h.detached.length, duration := duration h.tracker,
     backspaceCount := h.tracker.backspaceCount }, h)

/-- The contents, in session `h`, of the array object of reference `r`. -/
def deref (h : Session) (r : Nat) : Option (List Int) :=
  if r < h.detached.length then h.detached[r]?
  else if r = h.detached.length then some h.tracker.intervals
  else none

end Session

/-- The session in which the snapshot of the C7 counterexample is read: key
presses at 1000 and 1100 ms on a fresh tracker. -/
def snapshotSession : Session :=
  Session.pressAll Session.useTypingTracker [(⟨"a"⟩, 1000), (⟨"b"⟩, 1100)]

/-- Four key presses, at 1, 10^15 + 1, 2 * 10^15 + 1 and 3 * 10^15 + 2 ms, all
within the range of `Date.now()`: the intervals are 10^15, 10^15 and
10^15 + 1. -/
def largeGapPresses : List (KeyEvent × Int) :=
  [(⟨"a"⟩, 1), (⟨"b"⟩, 1000000000000001), (⟨"c"⟩, 2000000000000001),
   (⟨"d"⟩, 3000000000000002)]

/-- Four key presses, at 1, 2, 3 and 6900000000000002 ms: the intervals are 1, 1
and 6899999999999999. -/
def longPausePresses : List (KeyEvent × Int) :=
  [(⟨"a"⟩, 1), (⟨"b"⟩, 2), (⟨"c"⟩, 3), (⟨"d"⟩, 6900000000000002)]

/-- The exact arithmetic mean of a list of intervals, `sum / length`, as a
rational number (the mean the testable properties speak of). -/
def mean (xs : List Int) : ℚ :=
  ((xs.sum : Int) : ℚ) / (xs.length : ℚ)

/-- The mean of a non-empty list of intervals as lines 62 and 82-83 compute it:
the rounded quotient of the rounded sum by the length. -/
def doubleMean (xs : List Int) : ℚ :=
  roundDouble (sumIntervals xs / (xs.length : ℚ))

/-! ## Calls and reachable states -/

/-- One call of a function of the object returned by `useTypingTracker` that
changes the state: `handleKeyPress(event)` with the clock reading it obtains, or
`resetTracking()`. -/
inductive Call where
  | keyPress (event : KeyEvent) (currentTime : Int)
  | reset
deriving DecidableEq, Repr

/-- The state after one call. -/
def step (s : Tracker) : Call → Tracker
  | .keyPress event currentTime => handleKeyPress s event currentTime
  | .reset => resetTracking s

/-- The state after a sequence of calls.  The reachable states are the
`runCalls useTypingTracker calls`. -/
def runCalls (s : Tracker) (calls : List Call) : Tracker :=
  calls.foldl step s

/-- The state on which line 50 calls `detectAnomalies()` during the key press
`handleKeyPress s event currentTime`: the state after lines 27-46, when the
tests of lines 43 and 49 both succeed; `none` when line 50 is not reached. -/
def detectAnomaliesCall (s : Tracker) (event : KeyEvent) (currentTime : Int) : Option Tracker :=
  let s1 := if isFalsy s.startTime then { s with startTime := some currentTime } else s
  let s2 := { s1 with endTime := some currentTime }
  let s3 := if event.key = "Backspace" then { s2 with backspaceCount := s2.backspaceCount + 1 } else s2
  match s3.keyTimes.getLast? with
  | some lastKeyTime =>
    let interval := currentTime - lastKeyTime
    let s5 := { s3 with intervals := s3.intervals ++ [interval] }
    if s5.intervals.length > 3 then some s5 else none
  | none => none

/-- The invariant of the anomaly list: strictly increasing, and every entry is
an index of `intervals` that is at least 3. -/
def AnomaliesOk (s : Tracker) : Prop :=
  s.anomalies.Sorted (· < ·) ∧ ∀ i ∈ s.anomalies, 3 ≤ i ∧ i < s.intervals.length

end TypingTracker

namespace Api

/-! ## JavaScript values -/

/-- A JavaScript `Number`: `NaN`, the two infinities, or a finite value (taken
exactly). -/
inductive JsNumber where
  | nan
  | posInf
  | negInf
  | fin (q : ℚ)
deriving DecidableEq, Repr

/-- The JavaScript values that a caller can pass and that `response.json()`
can produce.  An object is its list of own properties; a property read takes
the first entry of the name. -/
inductive JsVal where
  | undefined
  | null
  | bool (b : Bool)
  | num (n : JsNumber)
  | str (s : String)
  | arr (items : List JsVal)
  | obj (fields : List (String × JsVal))

/-- An exception value: `name` and `message` of an `Error` object. -/
structure JsError where
  name : String
  message : String
deriving DecidableEq, Repr

/-- The value `new Error(message)`. -/
def newError (message : String) : JsError :=
  { name := "Error", message := message }

/-- JavaScript truthiness (`ToBoolean`): `undefined`, `null`, `false`, `NaN`,
zero and the empty string are falsy. -/
def truthy : JsVal → Bool
  | .undefined => false
  | .null => false
  | .bool b => b
  | .num .nan => false
  | .num (.fin q) => decide (q ≠ 0)
  | .num _ => true
  | .str s => decide (s ≠ "")
  | .arr _ => true
  | .obj _ => true

/-- The `typeof` operator. -/
def typeof : JsVal → String
  | .undefined => "undefined"
  | .null => "object"
  | .bool _ => "boolean"
  | .num _ => "number"
  | .str _ => "string"
  | .arr _ => "object"
  | .obj _ => "object"

/-- The test `Array.isArray`. -/
def isArray : JsVal → Bool
  | .arr _ => true
  | _ => false

/-- The property read `v.name` on a value that is neither `null` nor
`undefined`, for the names read in `api.js` (`intervals`, `duration`,
`backspaceCount`, `data`, `match_`, `similarity`): an own property of an object,
`undefined` on an array or a primitive, which inherit none of these names. -/
def getProp (v : JsVal) (name : String) : JsVal :=
  match v with
  | .obj fields => (fields.lookup name).getD .undefined
  | _ => .undefined

/-- Lines 153-155 read `typeof x === 'number' && !isNaN(x)`. -/
def isNaN : JsVal → Bool
  | .num .nan => true
  | _ => false

/-! ## Requests and responses -/

/-- Line 5. -/
def API_BASE_URL : String := "http://127.0.0.1:8080"

/-- The arguments of a `fetch` call as `api.js` builds them; `body` is the
object handed to `JSON.stringify`. -/
structure Request where
  url : String
  method : String
  contentType : String
  body : JsVal

/-- What the awaited `fetch` call, followed by `response.json()`, can do: the
promise rejects with an exception (a network failure, or an `AbortError` when
the controller aborts), or it resolves to a response with its `ok` flag and
status, whose body parses to a value or fails to parse. -/
inductive FetchOutcome where
  | rejected (e : JsError)
  | response (ok : Bool) (status : Nat) (json : Except JsError JsVal)

/-- The outcome of one call of a client function: the value the returned promise
resolves to or the exception it rejects with, and the requests issued. -/
structure ApiRun where
  result : Except JsError JsVal
  requests : List Request

/-- Lines 20-26 and 99-105: the exception thrown by the input validation, if any. -/
def validateInput (userId keyprint : JsVal) : Option JsError :=
  if !truthy userId then some (newError "User ID is required")
  else if !truthy keyprint || !isArray (getProp keyprint "intervals") ||
      (match getProp keyprint "intervals" with
       | .arr items => decide (items.length = 0)
       | _ => false) then
    some (newError "Valid keyprint data is required")
  else none

/-- Lines 28-35 and 107-114. -/
def requestBody (userId keyprint : JsVal) : JsVal :=
  .obj [("user_id", userId),
        ("keyprint", .obj [("intervals", getProp keyprint "intervals"),
                           ("duration", getProp keyprint "duration"),
                           ("backspace_count", getProp keyprint "backspaceCount")])]

/-- Lines 45-52 and 124-131: the `fetch` arguments for an endpoint path. -/
def postRequest (path : String) (body : JsVal) : Request :=
  { url := API_BASE_URL ++ path, method := "POST", contentType := "application/json",
    body := body }

/-- Lines 73-79 and 164-170: the inner `catch`. -/
def catchFetchError (r : Except JsError JsVal) : Except JsError JsVal :=
  match r with
  | .error fetchError =>
    if fetchError.name = "AbortError" then .error (newError "Request timed out")
    else .error fetchError
  | .ok v => .ok v

/-- Lines 16-84.  The outer `catch` rethrows what it caught. -/
def storeKeyprint (fetch : Request → FetchOutcome) (userId keyprint : JsVal) : ApiRun :=
  match validateInput userId keyprint with
  | some e => { result := .error e, requests := [] }
  | none =>
    let request := postRequest "/api/store-keyprint" (requestBody userId keyprint)
    let inner : Except JsError JsVal :=
      match fetch request with
      | .rejected e => .error e
      | .response ok status json =>
        if !ok then .error (newError ("API error: " ++ toString status))
        else
          match json with
          | .error e => .error e
          | .ok data =>
            if truthy data && typeof data == "object" then .ok data
            else .error (newError "Unexpected response format")
    { result := catchFetchError inner, requests := [request] }

/-- Line 148: `data.data || data`. -/
def resultData (data : JsVal) : JsVal :=
  if truthy (getProp data "data") then getProp data "data" else data

/-- Lines 151-156: the object literal `result`. -/
def normalize (resultData : JsVal) : JsVal :=
  .obj [("match_", .bool (match getProp resultData "match_" with
                          | .bool true => true
                          | _ => false)),
        ("similarity",
          if typeof (getProp resultData "similarity") == "number"
              && !isNaN (getProp resultData "similarity") then
            getProp resultData "similarity"
          else .num (.fin 0))]

/-- Lines 95-175.  The outer `catch` rethrows what it caught. -/
def verifyKeyprint (fetch : Request → FetchOutcome) (userId keyprint : JsVal) : ApiRun :=
  match validateInput userId keyprint with
  | some e => { result := .error e, requests := [] }
  | none =>
    let request := postRequest "/api/verify-keyprint" (requestBody userId keyprint)
    let inner : Except JsError JsVal :=
      match fetch request with
      | .rejected e => .error e
      | .response ok status json =>
        if !ok then .error (newError ("API error: " ++ toString status))
        else
          match json with
          | .error e => .error e
          | .ok data =>
            if truthy data && typeof data == "object" then .ok (normalize (resultData data))
            else .error (newError "Invalid API response format")
    { result := catchFetchError inner, requests := [request] }

/-- A snapshot as the tracker exports it: one interval of 100 ms. -/
def sampleKeyprint : JsVal :=
  .obj [("intervals", .arr [.num (.fin 100)]), ("duration", .num (.fin 100)),
        ("backspaceCount", .num (.fin 0))]

/-- The response body of the verification scenario:
`{data: {match_: true, similarity: 0.87}}`. -/
def scenarioResponse : JsVal :=
  .obj [("data", .obj [("match_", .bool true), ("similarity", .num (.fin (87 / 100)))])]

/-- A server that answers every request with status 200 and the given body. -/
def respondWith (body : JsVal) : Request → FetchOutcome :=
  fun _ => .response true 200 (.ok body)

/-- A response body whose `data` field is `null`, with `match_` and
`similarity` at the top level. -/
def nullDataResponse : JsVal :=
  .obj [("data", .null), ("match_", .bool true), ("similarity", .num (.fin (1 / 2)))]

/-- A response body whose `data` field is `false`, with `match_` and
`similarity` at the top level. -/
def falseDataResponse : JsVal :=
  .obj [("data", .bool false), ("match_", .bool true), ("similarity", .num (.fin (1 / 2)))]

/-- A server whose request never completes in time: `fetch` rejects with the
`AbortError` raised by `controller.abort()`. -/
def abortingFetch : Request → FetchOutcome :=
  fun _ => .rejected { name := "AbortError", message := "The user aborted a request." }

/-- The exception with which the awaited `fetch` (lines 45/124) or the awaited
`response.json()` (lines 63/142) fails, if one of them does.  `response.json()`
is reached only when `response.ok` holds. -/
def fetchFailure : FetchOutcome → Option JsError
  | .rejected e => some e
  | .response true _ (.error e) => some e
  | _ => none

/-- The inner `try` block of both client functions (lines 45-72 and 124-163),
with what they do on a well-formed body and the message of their format error
as parameters. -/
def tryBlock (outcome : FetchOutcome) (onData : JsVal → JsVal) (formatMessage : String) :
    Except JsError JsVal :=
  match outcome with
  | .rejected e => .error e
  | .response ok status json =>
    if !ok then .error (newError ("API error: " ++ toString status))
    else
      match json with
      | .error e => .error e
      | .ok data =>
        if truthy data && typeof data == "object" then .ok (onData data)
        else .error (newError formatMessage)

end Api

/-! # Theorems -/

namespace TypingTracker


/-! ## Frame lemmas -/

theorem detectAnomalies_intervals (s : Tracker) : (detectAnomalies s).intervals = s.intervals := by
  unfold detectAnomalies; dsimp only; split <;> rfl

theorem detectAnomalies_keyTimes (s : Tracker) : (detectAnomalies s).keyTimes = s.keyTimes := by
  unfold detectAnomalies; dsimp only; split <;> rfl

theorem detectAnomalies_backspaceCount (s : Tracker) :
    (detectAnomalies s).backspaceCount = s.backspaceCount := by
  unfold detectAnomalies; dsimp only; split <;> rfl

theorem detectAnomalies_startTime (s : Tracker) : (detectAnomalies s).startTime = s.startTime := by
  unfold detectAnomalies; dsimp only; split <;> rfl

theorem detectAnomalies_endTime (s : Tracker) : (detectAnomalies s).endTime = s.endTime := by
  unfold detectAnomalies; dsimp only; split <;> rfl

theorem handleKeyPress_keyTimes (s : Tracker) (event : KeyEvent) (t : Int) :
    (handleKeyPress s event t).keyTimes = s.keyTimes ++ [t] := by
  unfold handleKeyPress
  cases h : s.keyTimes.getLast? <;> by_cases hf : isFalsy s.startTime = true <;>
    by_cases hk : event.key = "Backspace" <;> simp [h, hf, hk] <;>
    split <;> simp [detectAnomalies_keyTimes]

theorem handleKeyPress_intervals (s : Tracker) (event : KeyEvent) (t : Int) :
    (handleKeyPress s event t).intervals = s.intervals ++ newInterval s.keyTimes t := by
  unfold handleKeyPress newInterval
  cases h : s.keyTimes.getLast? <;> by_cases hf : isFalsy s.startTime = true <;>
    by_cases hk : event.key = "Backspace" <;> simp [h, hf, hk] <;>
    split <;> simp [detectAnomalies_intervals]

theorem handleKeyPress_backspaceCount (s : Tracker) (event : KeyEvent) (t : Int) :
    (handleKeyPress s event t).backspaceCount
      = s.backspaceCount + (if event.key = "Backspace" then 1 else 0) := by
  unfold handleKeyPress
  cases h : s.keyTimes.getLast? <;> by_cases hf : isFalsy s.startTime = true <;>
    by_cases hk : event.key = "Backspace" <;> simp [h, hf, hk] <;>
    split <;> simp [detectAnomalies_backspaceCount]

theorem handleKeyPress_endTime (s : Tracker) (event : KeyEvent) (t : Int) :
    (handleKeyPress s event t).endTime = some t := by
  unfold handleKeyPress
  cases h : s.keyTimes.getLast? <;> by_cases hf : isFalsy s.startTime = true <;>
    by_cases hk : event.key = "Backspace" <;> simp [h, hf, hk] <;>
    split <;> simp [detectAnomalies_endTime]

theorem handleKeyPress_startTime (s : Tracker) (event : KeyEvent) (t : Int) :
    (handleKeyPress s event t).startTime
      = if isFalsy s.startTime then some t else s.startTime := by
  unfold handleKeyPress
  cases h : s.keyTimes.getLast? <;> by_cases hf : isFalsy s.startTime = true <;>
    by_cases hk : event.key = "Backspace" <;> simp [h, hf, hk] <;>
    split <;> simp [detectAnomalies_startTime]


theorem handleKeyPress_anomalies (s : Tracker) (event : KeyEvent) (t : Int) :
    (handleKeyPress s event t).anomalies =
      match s.keyTimes.getLast? with
      | none => s.anomalies
      | some lastKeyTime =>
        if s.intervals.length + 1 > 3 ∧
            exceedsThreshold (some (t - lastKeyTime)) (average s.intervals) = true then
          s.anomalies ++ [s.intervals.length]
        else s.anomalies := by
  unfold handleKeyPress
  cases h : s.keyTimes.getLast? <;> by_cases hf : isFalsy s.startTime = true <;>
    by_cases hk : event.key = "Backspace" <;> simp [h, hf, hk] <;>
    by_cases h3 : 3 < s.intervals.length + 1 <;>
    simp [h3, detectAnomalies, List.dropLast_concat] <;>
    split <;> simp_all

/-! ## Sequences of key presses -/

theorem pressAll_nil (s : Tracker) : pressAll s [] = s := rfl

theorem pressAll_concat (s : Tracker) (evs : List (KeyEvent × Int)) (e : KeyEvent × Int) :
    pressAll s (evs ++ [e]) = handleKeyPress (pressAll s evs) e.1 e.2 := by
  simp [pressAll, List.foldl_append]

theorem pressAll_cons (s : Tracker) (e : KeyEvent × Int) (evs : List (KeyEvent × Int)) :
    pressAll s (e :: evs) = pressAll (handleKeyPress s e.1 e.2) evs := rfl

theorem gaps_length (ts : List Int) : (gaps ts).length = ts.length - 1 := by
  simp [gaps, List.length_zipWith]

theorem gaps_getElem? (ts : List Int) (i : Nat) (h : i + 1 < ts.length) :
    (gaps ts)[i]? = some (ts.getD (i + 1) 0 - ts.getD i 0) := by
  have h1 : ts[i]? = some (ts.getD i 0) := by
    rw [List.getD_eq_getElem?_getD, List.getElem?_eq_getElem (by omega)]; rfl
  have h2 : ts.tail[i]? = some (ts.getD (i + 1) 0) := by
    rw [List.getD_eq_getElem?_getD, List.getElem?_eq_getElem h, List.getElem?_tail,
      List.getElem?_eq_getElem h]
    rfl
  rw [gaps, List.getElem?_zipWith, h1, h2]

theorem gaps_concat (ts : List Int) (t : Int) :
    gaps (ts ++ [t]) = gaps ts ++ newInterval ts t := by
  induction ts with
  | nil => simp [gaps, newInterval]
  | cons a rest ih =>
    cases rest with
    | nil => simp [gaps, newInterval]
    | cons b rest2 =>
      have : gaps (a :: b :: rest2 ++ [t]) = (b - a) :: gaps (b :: rest2 ++ [t]) := by
        simp [gaps]
      rw [this, ih]
      simp [gaps, newInterval, List.getLast?_cons_cons]

theorem pressAll_keyTimes (evs : List (KeyEvent × Int)) :
    (pressAll useTypingTracker evs).keyTimes = evs.map Prod.snd := by
  induction evs using List.reverseRecOn with
  | nil => rfl
  | append_singleton evs e ih => simp [pressAll_concat, handleKeyPress_keyTimes, ih]

theorem pressAll_intervals (evs : List (KeyEvent × Int)) :
    (pressAll useTypingTracker evs).intervals = gaps (evs.map Prod.snd) := by
  induction evs using List.reverseRecOn with
  | nil => rfl
  | append_singleton evs e ih =>
    simp [pressAll_concat, handleKeyPress_intervals, ih, pressAll_keyTimes, gaps_concat]

theorem foldl_add_eq_sum (xs : List Int) :
    xs.foldl (fun sum val => sum + val) 0 = xs.sum := by
  rw [List.sum_eq_foldl]

theorem exceedsThreshold_average (x : Int) (xs : List Int) (h : xs ≠ []) :
    exceedsThreshold (some x) (average xs) = true
      ↔ (x : ℚ) > roundDouble (doubleMean xs * (5 / 2)) := by
  have hlen : xs.length ≠ 0 := by simpa using h
  simp [exceedsThreshold, average, hlen, ANOMALY_THRESHOLD, doubleMean]

/-- The anomaly list after a key press that appends an interval, as one
conditional on the guard of line 49 and the comparison of line 68. -/
theorem handleKeyPress_anomalies_of_last (s : Tracker) (event : KeyEvent) (t lastKeyTime : Int)
    (hlast : s.keyTimes.getLast? = some lastKeyTime) :
    (handleKeyPress s event t).anomalies =
      if 3 ≤ s.intervals.length ∧
          ((t - lastKeyTime : Int) : ℚ) > roundDouble (doubleMean s.intervals * (5 / 2)) then
        s.anomalies ++ [s.intervals.length]
      else s.anomalies := by
  rw [handleKeyPress_anomalies, hlast]
  by_cases h3 : 3 ≤ s.intervals.length
  · have hne : s.intervals ≠ [] := by
      intro h; rw [h] at h3; simp at h3
    have h3lt : s.intervals.length + 1 > 3 := by omega
    simp only [h3, h3lt, true_and, exceedsThreshold_average _ _ hne]
  · have h3lt : ¬ (s.intervals.length + 1 > 3) := by omega
    simp [h3, h3lt]

/-! ## Rounding -/

theorem Math_round_eq_floor (x : ℚ) : Math_round x = ⌊x + 1 / 2⌋ := by
  unfold Math_round
  have h1 := Int.floor_le x
  have h2 := Int.lt_floor_add_one x
  split
  · next h =>
    symm
    rw [Int.floor_eq_iff]
    constructor <;> linarith
  · next h =>
    symm
    rw [Int.floor_eq_iff]
    push_cast
    constructor <;> linarith

theorem floor_add_half_nearest (x : ℚ) (z : Int) :
    |((⌊x + 1 / 2⌋ : Int) : ℚ) - x| ≤ |(z : ℚ) - x| := by
  have h1 := Int.floor_le (x + 1 / 2)
  have h2 := Int.lt_floor_add_one (x + 1 / 2)
  have hle : |((⌊x + 1 / 2⌋ : Int) : ℚ) - x| ≤ 1 / 2 := by
    rw [abs_le]; constructor <;> linarith
  rcases lt_trichotomy z ⌊x + 1 / 2⌋ with h | h | h
  · have : (z : ℚ) + 1 ≤ (⌊x + 1 / 2⌋ : Int) := by exact_mod_cast h
    have : (1 : ℚ) / 2 ≤ |(z : ℚ) - x| := by
      rw [le_abs]; right; linarith
    linarith
  · rw [h]
  · have : ((⌊x + 1 / 2⌋ : Int) : ℚ) + 1 ≤ (z : ℚ) := by exact_mod_cast h
    have : (1 : ℚ) / 2 ≤ |(z : ℚ) - x| := by
      rw [le_abs]; left; linarith
    linarith

theorem floor_add_half_tie (x : ℚ) (z : Int)
    (h : |(z : ℚ) - x| = |((⌊x + 1 / 2⌋ : Int) : ℚ) - x|) : z ≤ ⌊x + 1 / 2⌋ := by
  have h1 := Int.floor_le (x + 1 / 2)
  have h2 := Int.lt_floor_add_one (x + 1 / 2)
  by_contra hlt
  push_neg at hlt
  have h3 : ((⌊x + 1 / 2⌋ : Int) : ℚ) + 1 ≤ (z : ℚ) := by exact_mod_cast hlt
  have h4 : |((⌊x + 1 / 2⌋ : Int) : ℚ) - x| ≤ 1 / 2 := by
    rw [abs_le]; constructor <;> linarith
  have h5 : (1 : ℚ) / 2 < |(z : ℚ) - x| := by
    rw [lt_abs]; left; linarith
  linarith

theorem averageInterval_eq (s : Tracker) :
    averageInterval s = if s.intervals = [] then 0 else ⌊doubleMean s.intervals + 1 / 2⌋ := by
  unfold averageInterval
  by_cases h : s.intervals = []
  · simp [h]
  · have hlen : s.intervals.length ≠ 0 := by simpa using h
    simp only [hlen, if_false, h, Math_round_eq_floor, doubleMean]

theorem mean_add_half (xs : List Int) (h : xs ≠ []) :
    ⌊mean xs + 1 / 2⌋ = (2 * xs.sum + xs.length) / (2 * (xs.length : Int)) := by
  have hlen : (xs.length : ℚ) ≠ 0 := by
    have : xs.length ≠ 0 := by simpa using h
    exact_mod_cast this
  have : mean xs + 1 / 2 = ((2 * xs.sum + xs.length : Int) : ℚ) / ((2 * xs.length : Nat) : ℚ) := by
    unfold mean
    push_cast
    field_simp
    ring
  rw [this, Rat.floor_intCast_div_natCast]
  push_cast
  rfl

/-! ## Reset, backspaces and array identity -/

theorem resetTracking_eq (s : Tracker) : resetTracking s = useTypingTracker := rfl

theorem pressAll_backspaceCount (s : Tracker) (evs : List (KeyEvent × Int)) :
    (pressAll s evs).backspaceCount
      = s.backspaceCount + evs.countP (fun e => decide (e.1.key = "Backspace")) := by
  induction evs using List.reverseRecOn with
  | nil => simp [pressAll_nil]
  | append_singleton evs e ih =>
    rw [pressAll_concat, handleKeyPress_backspaceCount, ih, List.countP_append]
    by_cases hk : e.1.key = "Backspace" <;> simp [hk, List.countP_cons, Nat.add_assoc]

theorem pressAll_intervals_extends (s : Tracker) (evs : List (KeyEvent × Int)) :
    s.intervals <+: (pressAll s evs).intervals := by
  induction evs using List.reverseRecOn with
  | nil => exact List.prefix_refl _
  | append_singleton evs e ih =>
    rw [pressAll_concat, handleKeyPress_intervals]
    exact ih.trans (List.prefix_append _ _)

theorem Session.pressAll_detached (h : Session) (evs : List (KeyEvent × Int)) :
    (Session.pressAll h evs).detached = h.detached := by
  induction evs generalizing h with
  | nil => rfl
  | cons e evs ih =>
    show (Session.pressAll (h.handleKeyPress e.1 e.2) evs).detached = h.detached
    rw [ih]; rfl

theorem Session.pressAll_tracker (h : Session) (evs : List (KeyEvent × Int)) :
    (Session.pressAll h evs).tracker = TypingTracker.pressAll h.tracker evs := by
  induction evs generalizing h with
  | nil => rfl
  | cons e evs ih =>
    show (Session.pressAll (h.handleKeyPress e.1 e.2) evs).tracker = _
    rw [ih]; rfl

theorem Session.deref_live (h : Session) :
    h.deref h.detached.length = some h.tracker.intervals := by
  simp [Session.deref]

/-! ## Double arithmetic

Properties of `roundDouble`: the exponent, the grid of doubles at an exponent,
and the two cases in which the code's double computations agree with exact
arithmetic. -/


theorem log2Fuel_spec (fuel n : Nat) (hn : 1 ≤ n) (hf : n ≤ fuel) :
    2 ^ log2Fuel fuel n ≤ n ∧ n < 2 ^ (log2Fuel fuel n + 1) := by
  induction fuel generalizing n with
  | zero => omega
  | succ fuel ih =>
    unfold log2Fuel
    by_cases h2 : n < 2
    · simp only [h2, if_true]
      constructor <;> simp <;> omega
    · simp only [h2, if_false]
      have h := ih (n / 2) (by omega) (by omega)
      constructor
      · rw [pow_succ]
        have := Nat.div_mul_le_self n 2
        nlinarith [h.1]
      · rw [pow_succ]
        have := Nat.lt_div_mul_add (a := n) (b := 2) (by norm_num)
        nlinarith [h.2]

theorem natLog2_spec (n : Nat) (hn : 1 ≤ n) :
    2 ^ natLog2 n ≤ n ∧ n < 2 ^ (natLog2 n + 1) :=
  log2Fuel_spec n n hn le_rfl

theorem pow2_eq_zpow (e : Int) : pow2 e = (2 : ℚ) ^ e := by
  unfold pow2
  by_cases h : 0 ≤ e
  · simp only [h, if_true]
    obtain ⟨n, rfl⟩ := Int.eq_ofNat_of_zero_le h
    simp
  · simp only [h, if_false]
    push_neg at h
    obtain ⟨n, hn⟩ := Int.eq_ofNat_of_zero_le (show 0 ≤ -e by omega)
    have he : e = -(n : Int) := by omega
    rw [hn, he]
    simp

theorem pow2_pos (e : Int) : 0 < pow2 e := by
  rw [pow2_eq_zpow]; positivity


theorem abs_eq_natAbs_div_den (x : ℚ) : |x| = (x.num.natAbs : ℚ) / (x.den : ℚ) := by
  have hden : (0 : ℚ) < x.den := by exact_mod_cast x.den_pos
  conv_lhs => rw [← Rat.num_div_den x]
  rw [abs_div, abs_of_pos hden, Nat.cast_natAbs, Int.cast_abs]

theorem ilog2_spec (x : ℚ) (hx : x ≠ 0) :
    (2 : ℚ) ^ ilog2 x ≤ |x| ∧ |x| < (2 : ℚ) ^ (ilog2 x + 1) := by
  have hp : 1 ≤ x.num.natAbs := by
    have : x.num ≠ 0 := Rat.num_ne_zero.mpr hx
    omega
  have hq : 1 ≤ x.den := x.den_pos
  obtain ⟨hp1, hp2⟩ := natLog2_spec _ hp
  obtain ⟨hq1, hq2⟩ := natLog2_spec _ hq
  have hden : (0 : ℚ) < x.den := by exact_mod_cast x.den_pos
  have habs := abs_eq_natAbs_div_den x
  have hp1q : (2 : ℚ) ^ (natLog2 x.num.natAbs) ≤ (x.num.natAbs : ℚ) := by exact_mod_cast hp1
  have hp2q : (x.num.natAbs : ℚ) < (2 : ℚ) ^ (natLog2 x.num.natAbs + 1) := by exact_mod_cast hp2
  have hq1q : (2 : ℚ) ^ (natLog2 x.den) ≤ (x.den : ℚ) := by exact_mod_cast hq1
  have hq2q : (x.den : ℚ) < (2 : ℚ) ^ (natLog2 x.den + 1) := by exact_mod_cast hq2
  have h2 : (2 : ℚ) ≠ 0 := by norm_num
  -- the two candidate exponents
  have hup : |x| < (2 : ℚ) ^ ((natLog2 x.num.natAbs : Int) - (natLog2 x.den : Int) + 1) := by
    rw [habs, div_lt_iff₀ hden]
    have e1 : (2 : ℚ) ^ ((natLog2 x.num.natAbs : Int) - (natLog2 x.den : Int) + 1)
        * (2 : ℚ) ^ (natLog2 x.den) = (2 : ℚ) ^ (natLog2 x.num.natAbs + 1) := by
      rw [← zpow_natCast, ← zpow_natCast, ← zpow_add₀ h2]
      congr 1
      push_cast
      ring
    have hpos : (0 : ℚ) < (2 : ℚ) ^ ((natLog2 x.num.natAbs : Int) - (natLog2 x.den : Int) + 1) := by
      positivity
    calc (x.num.natAbs : ℚ) < (2 : ℚ) ^ (natLog2 x.num.natAbs + 1) := hp2q
      _ = (2 : ℚ) ^ ((natLog2 x.num.natAbs : Int) - (natLog2 x.den : Int) + 1)
            * (2 : ℚ) ^ (natLog2 x.den) := e1.symm
      _ ≤ (2 : ℚ) ^ ((natLog2 x.num.natAbs : Int) - (natLog2 x.den : Int) + 1) * (x.den : ℚ) :=
          mul_le_mul_of_nonneg_left hq1q hpos.le
  have hlow : (2 : ℚ) ^ ((natLog2 x.num.natAbs : Int) - (natLog2 x.den : Int) - 1) ≤ |x| := by
    rw [habs, le_div_iff₀ hden]
    have e1 : (2 : ℚ) ^ ((natLog2 x.num.natAbs : Int) - (natLog2 x.den : Int) - 1)
        * (2 : ℚ) ^ (natLog2 x.den + 1) = (2 : ℚ) ^ (natLog2 x.num.natAbs) := by
      rw [← zpow_natCast, ← zpow_natCast, ← zpow_add₀ h2]
      congr 1
      push_cast
      ring
    have hpos : (0 : ℚ) < (2 : ℚ) ^ ((natLog2 x.num.natAbs : Int) - (natLog2 x.den : Int) - 1) := by
      positivity
    calc (2 : ℚ) ^ ((natLog2 x.num.natAbs : Int) - (natLog2 x.den : Int) - 1) * (x.den : ℚ)
        ≤ (2 : ℚ) ^ ((natLog2 x.num.natAbs : Int) - (natLog2 x.den : Int) - 1)
            * (2 : ℚ) ^ (natLog2 x.den + 1) := mul_le_mul_of_nonneg_left hq2q.le hpos.le
      _ = (2 : ℚ) ^ (natLog2 x.num.natAbs) := e1
      _ ≤ (x.num.natAbs : ℚ) := hp1q
  unfold ilog2
  rw [pow2_eq_zpow]
  by_cases hc : (2 : ℚ) ^ ((natLog2 x.num.natAbs : Int) - (natLog2 x.den : Int)) ≤ |x|
  · rw [if_pos hc]
    exact ⟨hc, hup⟩
  · rw [if_neg hc]
    push_neg at hc
    refine ⟨hlow, ?_⟩
    have : (natLog2 x.num.natAbs : Int) - (natLog2 x.den : Int) - 1 + 1
        = (natLog2 x.num.natAbs : Int) - (natLog2 x.den : Int) := by ring
    rw [this]
    exact hc


theorem roundHalfEven_cases (y : ℚ) :
    (roundHalfEven y = ⌊y⌋ ∧ y - (⌊y⌋ : ℚ) ≤ 1 / 2 ∧
        (y - (⌊y⌋ : ℚ) = 1 / 2 → ⌊y⌋ % 2 = 0)) ∨
    (roundHalfEven y = ⌊y⌋ + 1 ∧ 1 / 2 ≤ y - (⌊y⌋ : ℚ) ∧
        (y - (⌊y⌋ : ℚ) = 1 / 2 → ⌊y⌋ % 2 ≠ 0)) := by
  unfold roundHalfEven
  by_cases h1 : y - (⌊y⌋ : ℚ) < 1 / 2
  · left
    rw [if_pos h1]
    exact ⟨rfl, h1.le, fun h => absurd h (ne_of_lt h1)⟩
  · rw [if_neg h1]
    by_cases h2 : 1 / 2 < y - (⌊y⌋ : ℚ)
    · right
      rw [if_pos h2]
      exact ⟨rfl, h2.le, fun h => absurd h.symm (ne_of_lt h2)⟩
    · rw [if_neg h2]
      have heq : y - (⌊y⌋ : ℚ) = 1 / 2 := le_antisymm (not_lt.mp h2) (not_lt.mp h1)
      by_cases h3 : ⌊y⌋ % 2 = 0
      · left
        rw [if_pos h3]
        exact ⟨rfl, heq.le, fun _ => h3⟩
      · right
        rw [if_neg h3]
        exact ⟨rfl, heq.ge, fun _ => h3⟩

theorem roundHalfEven_intCast (k : Int) : roundHalfEven (k : ℚ) = k := by
  unfold roundHalfEven
  simp

theorem abs_roundHalfEven_sub_le (y : ℚ) : |((roundHalfEven y : Int) : ℚ) - y| ≤ 1 / 2 := by
  have h1 := Int.floor_le y
  have h2 := Int.lt_floor_add_one y
  rcases roundHalfEven_cases y with ⟨h, hle, _⟩ | ⟨h, hge, _⟩
  · rw [h, abs_le]; constructor <;> linarith
  · rw [h, abs_le]; push_cast; constructor <;> linarith

theorem le_roundHalfEven (k : Int) (y : ℚ) (h : (k : ℚ) ≤ y) : k ≤ roundHalfEven y := by
  have hk : k ≤ ⌊y⌋ := Int.le_floor.mpr h
  rcases roundHalfEven_cases y with ⟨h1, _, _⟩ | ⟨h1, _, _⟩ <;> rw [h1] <;> omega

theorem roundHalfEven_le (k : Int) (y : ℚ) (h : y ≤ (k : ℚ)) : roundHalfEven y ≤ k := by
  have h1 := Int.floor_le y
  have hk : ⌊y⌋ ≤ k := by
    have : ((⌊y⌋ : Int) : ℚ) ≤ (k : ℚ) := le_trans h1 h
    exact_mod_cast this
  rcases roundHalfEven_cases y with ⟨h2, _, _⟩ | ⟨h2, hge, _⟩
  · rw [h2]; exact hk
  · rw [h2]
    have hlt : ((⌊y⌋ : Int) : ℚ) < (k : ℚ) := by linarith
    have : ⌊y⌋ < k := by exact_mod_cast hlt
    omega

theorem roundHalfEven_lt (k : Int) (y : ℚ) (h : y < (k : ℚ) - 1 / 2) : roundHalfEven y < k := by
  have h1 := Int.floor_le y
  have hk : ⌊y⌋ < k := by
    have : ((⌊y⌋ : Int) : ℚ) < (k : ℚ) := by linarith
    exact_mod_cast this
  rcases roundHalfEven_cases y with ⟨h2, _, _⟩ | ⟨h2, hge, _⟩
  · rw [h2]; exact hk
  · rw [h2]
    have hlt : ((⌊y⌋ : Int) : ℚ) + 1 < (k : ℚ) := by linarith
    have : ⌊y⌋ + 1 < k := by exact_mod_cast hlt
    exact this

theorem le_roundHalfEven_of_even (k : Int) (y : ℚ) (hk : k % 2 = 0)
    (h : (k : ℚ) - 1 / 2 ≤ y) : k ≤ roundHalfEven y := by
  by_cases hy : (k : ℚ) ≤ y
  · exact le_roundHalfEven k y hy
  · push_neg at hy
    have hfl : ⌊y⌋ = k - 1 := by
      rw [Int.floor_eq_iff]
      push_cast
      constructor <;> linarith
    rcases roundHalfEven_cases y with ⟨h2, hle, htie⟩ | ⟨h2, _, _⟩
    · rw [hfl] at hle htie
      push_cast at hle htie
      have heq : y - ((k : ℚ) - 1) = 1 / 2 := by linarith
      have := htie heq
      omega
    · rw [h2, hfl]; omega

theorem abs_roundHalfEven_sub_le_of_five (y : ℚ) (m : Int) (h : 5 * y = (m : ℚ)) :
    |((roundHalfEven y : Int) : ℚ) - y| ≤ 2 / 5 := by
  have h1 := abs_roundHalfEven_sub_le y
  have hy : y = (m : ℚ) / 5 := by linarith
  have h5 : |((5 * roundHalfEven y - m : Int) : ℚ)| ≤ 5 / 2 := by
    have : ((5 * roundHalfEven y - m : Int) : ℚ) = 5 * (((roundHalfEven y : Int) : ℚ) - y) := by
      push_cast; rw [hy]; ring
    rw [this, abs_mul]
    have : |(5 : ℚ)| = 5 := abs_of_pos (by norm_num)
    rw [this]; linarith
  have h6 : |(5 * roundHalfEven y - m : Int)| ≤ 2 := by
    have : ((|(5 * roundHalfEven y - m : Int)| : Int) : ℚ) ≤ 5 / 2 := by
      rw [Int.cast_abs]; exact h5
    have h7 : ((|(5 * roundHalfEven y - m : Int)| : Int) : ℚ) < 3 := by linarith
    have : |(5 * roundHalfEven y - m : Int)| < 3 := by exact_mod_cast h7
    omega
  have h8 : |((5 * roundHalfEven y - m : Int) : ℚ)| ≤ 2 := by
    rw [← Int.cast_abs]; exact_mod_cast h6
  have : ((roundHalfEven y : Int) : ℚ) - y = ((5 * roundHalfEven y - m : Int) : ℚ) / 5 := by
    push_cast; rw [hy]; ring
  rw [this, abs_div]
  have : |(5 : ℚ)| = 5 := abs_of_pos (by norm_num)
  rw [this]
  linarith


theorem roundDouble_grid (x : ℚ) (hx : x ≠ 0) :
    ∃ E : Int, ilog2 x ≤ E ∧ -1022 ≤ E ∧ (E = ilog2 x ∨ E = -1022) ∧
      roundDouble x = ((roundHalfEven (x / (2 : ℚ) ^ (E - 52)) : Int) : ℚ) * (2 : ℚ) ^ (E - 52) := by
  refine ⟨max (ilog2 x) (-1022), le_max_left _ _, le_max_right _ _, ?_, ?_⟩
  · rcases le_total (ilog2 x) (-1022) with h | h
    · right; exact max_eq_right h
    · left; exact max_eq_left h
  · unfold roundDouble
    rw [if_neg hx, pow2_eq_zpow]

theorem ilog2_lt_of_abs_lt (x : ℚ) (hx : x ≠ 0) (m : Int) (h : |x| < (2 : ℚ) ^ m) :
    ilog2 x < m := by
  have h1 := (ilog2_spec x hx).1
  have : (2 : ℚ) ^ ilog2 x < (2 : ℚ) ^ m := lt_of_le_of_lt h1 h
  exact (zpow_lt_zpow_iff_right₀ (by norm_num)).mp this

theorem le_ilog2_of_le_abs (x : ℚ) (hx : x ≠ 0) (m : Int) (h : (2 : ℚ) ^ m ≤ |x|) :
    m ≤ ilog2 x := by
  have h1 := (ilog2_spec x hx).2
  have : (2 : ℚ) ^ m < (2 : ℚ) ^ (ilog2 x + 1) := lt_of_le_of_lt h h1
  have := (zpow_lt_zpow_iff_right₀ (by norm_num)).mp this
  omega

/-- An integer is a multiple of every spacing `2 ^ (E - 52)` with `E ≤ 52`. -/
theorem int_eq_mul_zpow (n : Int) (E : Int) (hE : E ≤ 52) :
    (n : ℚ) = ((n * 2 ^ (52 - E).toNat : Int) : ℚ) * (2 : ℚ) ^ (E - 52) := by
  have h2 : (2 : ℚ) ≠ 0 := by norm_num
  have hnat : ((52 - E).toNat : Int) = 52 - E := Int.toNat_of_nonneg (by omega)
  push_cast
  rw [mul_assoc, ← zpow_natCast, ← zpow_add₀ h2, hnat]
  have : (52 - E) + (E - 52) = 0 := by ring
  rw [this, zpow_zero, mul_one]

theorem roundDouble_of_mul (x : ℚ) (hx : x ≠ 0) (K : Int)
    (h : ∀ E : Int, ilog2 x ≤ E → -1022 ≤ E → (E = ilog2 x ∨ E = -1022) →
      x = (K : ℚ) * (2 : ℚ) ^ (E - 52)) :
    roundDouble x = x := by
  obtain ⟨E, h1, h2, h3, hr⟩ := roundDouble_grid x hx
  have hK := h E h1 h2 h3
  have hu : (2 : ℚ) ^ (E - 52) ≠ 0 := by positivity
  rw [hr]
  conv_lhs => rw [hK]
  rw [mul_div_assoc, div_self hu, mul_one, roundHalfEven_intCast]
  exact hK.symm

theorem roundDouble_intCast (n : Int) (h0 : 0 ≤ n) (h : n < 2 ^ 53) :
    roundDouble (n : ℚ) = (n : ℚ) := by
  by_cases hn : n = 0
  · subst hn; simp [roundDouble]
  · have hx : (n : ℚ) ≠ 0 := by exact_mod_cast hn
    obtain ⟨E, h1, h2, h3, hr⟩ := roundDouble_grid (n : ℚ) hx
    have hpos : (1 : ℚ) ≤ |(n : ℚ)| := by
      rw [abs_of_nonneg (by exact_mod_cast h0)]
      have : 1 ≤ n := by omega
      exact_mod_cast this
    have hlt : |(n : ℚ)| < (2 : ℚ) ^ (53 : Int) := by
      rw [abs_of_nonneg (by exact_mod_cast h0)]
      have : (n : ℚ) < ((2 ^ 53 : Int) : ℚ) := by exact_mod_cast h
      rw [zpow_ofNat]
      exact_mod_cast this
    have he1 : ilog2 (n : ℚ) < 53 := ilog2_lt_of_abs_lt _ hx 53 hlt
    have he0 : 0 ≤ ilog2 (n : ℚ) := le_ilog2_of_le_abs _ hx 0 (by simpa using hpos)
    have hE : E ≤ 52 := by rcases h3 with h3 | h3 <;> omega
    have hK := int_eq_mul_zpow n E hE
    have hu : (2 : ℚ) ^ (E - 52) ≠ 0 := by positivity
    rw [hr]
    conv_lhs => rw [hK]
    rw [mul_div_assoc, div_self hu, mul_one, roundHalfEven_intCast]
    exact hK.symm

theorem foldl_roundDouble_exact (xs : List Int) (acc : Int) (hacc : 0 ≤ acc)
    (hxs : ∀ x ∈ xs, 0 ≤ x) (hsum : acc + xs.sum < 2 ^ 53) :
    xs.foldl (fun (sum : ℚ) (val : Int) => roundDouble (sum + (val : ℚ))) (acc : ℚ)
      = ((acc + xs.sum : Int) : ℚ) := by
  induction xs generalizing acc with
  | nil => simp
  | cons x rest ih =>
    have hx : 0 ≤ x := hxs x (List.mem_cons_self _ _)
    have hrest : ∀ y ∈ rest, 0 ≤ y := fun y hy => hxs y (List.mem_cons_of_mem _ hy)
    have hrs : 0 ≤ rest.sum := List.sum_nonneg hrest
    rw [List.sum_cons] at hsum
    have hstep : roundDouble ((acc : ℚ) + (x : ℚ)) = ((acc + x : Int) : ℚ) := by
      have := roundDouble_intCast (acc + x) (by omega) (by omega)
      push_cast at this ⊢
      exact this
    rw [List.foldl_cons, hstep, ih (acc + x) (by omega) hrest (by omega), List.sum_cons]
    congr 1
    ring

theorem sumIntervals_exact (xs : List Int) (hxs : ∀ x ∈ xs, 0 ≤ x) (hsum : xs.sum < 2 ^ 53) :
    sumIntervals xs = (xs.sum : ℚ) := by
  have := foldl_roundDouble_exact xs 0 le_rfl hxs (by simpa using hsum)
  unfold sumIntervals
  simpa using this


theorem half_int_eq_mul_zpow (j : Int) (E : Int) (hE : E ≤ 51) :
    (j : ℚ) / 2 = ((j * 2 ^ (51 - E).toNat : Int) : ℚ) * (2 : ℚ) ^ (E - 52) := by
  have h2 : (2 : ℚ) ≠ 0 := by norm_num
  have hnat : ((51 - E).toNat : Int) = 51 - E := Int.toNat_of_nonneg (by omega)
  push_cast
  rw [mul_assoc, ← zpow_natCast, ← zpow_add₀ h2, hnat]
  have : (51 - E) + (E - 52) = -1 := by ring
  rw [this]
  norm_num
  ring

/-- The spacing at a positive quotient `S / n`, multiplied by `n`, is at most
`S / 2 ^ 52`, or is `n / 2 ^ 1074`. -/
theorem mul_spacing_lt (S : Int) (n : Nat) (hS : 0 < S) (hn : 0 < n) (hnb : n < 2 ^ 32)
    (B : Int) (hB : 0 ≤ B) (hSB : S < 2 ^ B.toNat) (hB52 : B ≤ 52)
    (E : Int) (hE : E = ilog2 ((S : ℚ) / n) ∨ E = -1022) :
    (n : ℚ) * (2 : ℚ) ^ (E - 52) < (2 : ℚ) ^ (B - 52) := by
  have hnq : (0 : ℚ) < n := by exact_mod_cast hn
  have hSq : (0 : ℚ) < S := by exact_mod_cast hS
  have hq : (0 : ℚ) < (S : ℚ) / n := div_pos hSq hnq
  have h2 : (2 : ℚ) ≠ 0 := by norm_num
  rcases hE with hE | hE
  · have hspec := (ilog2_spec ((S : ℚ) / n) hq.ne').1
    rw [abs_of_pos hq, ← hE] at hspec
    have h1 : (n : ℚ) * (2 : ℚ) ^ E ≤ S := by
      have := mul_le_mul_of_nonneg_left hspec hnq.le
      rwa [mul_div_cancel₀ _ hnq.ne'] at this
    have hSB2 : (S : ℚ) < (2 : ℚ) ^ B := by
      have : (S : ℚ) < ((2 ^ B.toNat : Int) : ℚ) := by exact_mod_cast hSB
      have hb : ((B.toNat : Nat) : Int) = B := Int.toNat_of_nonneg hB
      rw [← hb, zpow_natCast]
      exact_mod_cast this
    have e1 : (2 : ℚ) ^ (E - 52) = (2 : ℚ) ^ E * (2 : ℚ) ^ (-52 : Int) := by
      rw [← zpow_add₀ h2]; congr 1
    have e2 : (2 : ℚ) ^ (B - 52) = (2 : ℚ) ^ B * (2 : ℚ) ^ (-52 : Int) := by
      rw [← zpow_add₀ h2]; congr 1
    have hpos : (0 : ℚ) < (2 : ℚ) ^ (-52 : Int) := by positivity
    rw [e1, e2, ← mul_assoc]
    exact mul_lt_mul_of_pos_right (lt_of_le_of_lt h1 hSB2) hpos
  · rw [hE]
    have hn32 : (n : ℚ) < (2 : ℚ) ^ (32 : Int) := by
      have : (n : ℚ) < ((2 ^ 32 : Nat) : ℚ) := by exact_mod_cast hnb
      rw [zpow_ofNat]; exact_mod_cast this
    have hpos : (0 : ℚ) < (2 : ℚ) ^ (-1022 - 52 : Int) := by positivity
    have h3 : (n : ℚ) * (2 : ℚ) ^ (-1022 - 52 : Int)
        < (2 : ℚ) ^ (32 : Int) * (2 : ℚ) ^ (-1022 - 52 : Int) :=
      mul_lt_mul_of_pos_right hn32 hpos
    rw [← zpow_add₀ h2] at h3
    refine lt_of_lt_of_le h3 ?_
    exact zpow_le_zpow_right₀ (by norm_num) (by omega)


theorem floor_roundDouble_div (S : Int) (n : Nat) (hS0 : 0 ≤ S) (hn : 0 < n)
    (hsum : S < 2 ^ 52) (hlen : n < 2 ^ 32) :
    ⌊roundDouble ((S : ℚ) / n) + 1 / 2⌋ = ⌊(S : ℚ) / n + 1 / 2⌋ := by
  have hnq : (0 : ℚ) < n := by exact_mod_cast hn
  by_cases hS : S = 0
  · rw [hS]; simp [roundDouble]
  have hSpos : 0 < S := by omega
  have hSq : (0 : ℚ) < (S : ℚ) := by exact_mod_cast hSpos
  have hq : (0 : ℚ) < (S : ℚ) / n := div_pos hSq hnq
  obtain ⟨E, hE1, hE2, hE3, hr⟩ := roundDouble_grid _ hq.ne'
  have hu : (0 : ℚ) < (2 : ℚ) ^ (E - 52) := by positivity
  -- the exponent is at most 51
  have hqlt : |(S : ℚ) / n| < (2 : ℚ) ^ (52 : Int) := by
    rw [abs_of_pos hq, div_lt_iff₀ hnq]
    have h1 : (S : ℚ) < (2 : ℚ) ^ (52 : Int) := by
      have : (S : ℚ) < ((2 ^ 52 : Int) : ℚ) := by exact_mod_cast hsum
      rw [zpow_ofNat]; exact_mod_cast this
    have h2 : (1 : ℚ) ≤ n := by exact_mod_cast hn
    have h3 : (0 : ℚ) < (2 : ℚ) ^ (52 : Int) := by positivity
    nlinarith
  have hE51 : E ≤ 51 := by
    have := ilog2_lt_of_abs_lt _ hq.ne' 52 hqlt
    rcases hE3 with h | h <;> omega
  have hnu : (n : ℚ) * (2 : ℚ) ^ (E - 52) < 1 := by
    have := mul_spacing_lt S n hSpos hn hlen 52 (by norm_num)
      hsum le_rfl E hE3
    simpa using this
  -- the floor of the exact value
  have hk1 := Int.floor_le ((S : ℚ) / n + 1 / 2)
  have hk2 := Int.lt_floor_add_one ((S : ℚ) / n + 1 / 2)
  set k := ⌊(S : ℚ) / n + 1 / 2⌋ with hk
  rw [Int.floor_eq_iff, hr]
  constructor
  · -- lower bound: `k - 1/2` lies on the grid
    have hgrid := half_int_eq_mul_zpow (2 * k - 1) E hE51
    have hle : (((2 * k - 1) * 2 ^ (51 - E).toNat : Int) : ℚ)
        ≤ (S : ℚ) / n / (2 : ℚ) ^ (E - 52) := by
      rw [le_div_iff₀ hu, ← hgrid]
      push_cast
      linarith
    have := le_roundHalfEven _ _ hle
    have h3 : (((2 * k - 1) * 2 ^ (51 - E).toNat : Int) : ℚ) * (2 : ℚ) ^ (E - 52)
        ≤ ((roundHalfEven ((S : ℚ) / n / (2 : ℚ) ^ (E - 52)) : Int) : ℚ)
            * (2 : ℚ) ^ (E - 52) :=
      mul_le_mul_of_nonneg_right (by exact_mod_cast this) hu.le
    rw [← hgrid] at h3
    push_cast at h3
    linarith
  · -- upper bound: `k + 1/2` lies on the grid and the gap exceeds half a spacing
    have hgrid := half_int_eq_mul_zpow (2 * k + 1) E hE51
    have hgap : (1 : ℚ) / (2 * n) ≤ (k : ℚ) + 1 / 2 - (S : ℚ) / n := by
      have hint : 2 * S < (2 * k + 1) * (n : Int) := by
        have : (S : ℚ) / n < ((2 * k + 1 : Int) : ℚ) / 2 := by
          push_cast; linarith
        rw [div_lt_div_iff₀ hnq (by norm_num)] at this
        have h4 : ((S * 2 : Int) : ℚ) < (((2 * k + 1) * (n : Int) : Int) : ℚ) := by
          push_cast; push_cast at this; linarith
        have : S * 2 < (2 * k + 1) * (n : Int) := by exact_mod_cast h4
        omega
      have hint2 : (2 * S + 1 : Int) ≤ (2 * k + 1) * (n : Int) := by omega
      have hq2 : ((2 * S + 1 : Int) : ℚ) ≤ (((2 * k + 1) * (n : Int) : Int) : ℚ) := by
        exact_mod_cast hint2
      push_cast at hq2
      rw [div_le_iff₀ (by positivity), sub_mul]
      have : (S : ℚ) / n * (2 * n) = 2 * S := by
        field_simp
        ring
      rw [this]
      linarith
    have hlt : (S : ℚ) / n / (2 : ℚ) ^ (E - 52)
        < (((2 * k + 1) * 2 ^ (51 - E).toNat : Int) : ℚ) - 1 / 2 := by
      rw [div_lt_iff₀ hu, sub_mul, ← hgrid]
      push_cast
      have h5 : (1 : ℚ) / 2 * (2 : ℚ) ^ (E - 52) < 1 / (2 * n) := by
        rw [lt_div_iff₀ (by positivity)]
        nlinarith
      linarith
    have := roundHalfEven_lt _ _ hlt
    have h6 : roundHalfEven ((S : ℚ) / n / (2 : ℚ) ^ (E - 52))
        ≤ (2 * k + 1) * 2 ^ (51 - E).toNat - 1 := by omega
    have h7 : ((roundHalfEven ((S : ℚ) / n / (2 : ℚ) ^ (E - 52)) : Int) : ℚ)
        ≤ (((2 * k + 1) * 2 ^ (51 - E).toNat : Int) : ℚ) - 1 := by
      exact_mod_cast h6
    have h8 := mul_le_mul_of_nonneg_right h7 hu.le
    rw [sub_mul, ← hgrid] at h8
    push_cast at h8
    linarith

theorem floor_doubleMean_eq (xs : List Int) (hne : xs ≠ []) (hnn : ∀ x ∈ xs, 0 ≤ x)
    (hsum : xs.sum < 2 ^ 52) (hlen : xs.length < 2 ^ 32) :
    ⌊doubleMean xs + 1 / 2⌋ = ⌊mean xs + 1 / 2⌋ := by
  have hn : 0 < xs.length := List.length_pos.mpr hne
  have hS0 : 0 ≤ xs.sum := List.sum_nonneg hnn
  have hexact := sumIntervals_exact xs hnn (by omega)
  unfold doubleMean mean
  rw [hexact]
  exact floor_roundDouble_div xs.sum xs.length hS0 hn hsum hlen


theorem grid_le (u y : ℚ) (K : Int) (hu : 0 < u) (h : (K : ℚ) * u ≤ y) :
    (K : ℚ) * u ≤ ((roundHalfEven (y / u) : Int) : ℚ) * u := by
  have h1 : (K : ℚ) ≤ y / u := by rwa [le_div_iff₀ hu]
  have h2 := le_roundHalfEven K _ h1
  exact mul_le_mul_of_nonneg_right (by exact_mod_cast h2) hu.le

theorem grid_lt (u y : ℚ) (K : Int) (hu : 0 < u) (h : y < (K : ℚ) * u - u / 2) :
    ((roundHalfEven (y / u) : Int) : ℚ) * u < (K : ℚ) * u := by
  have h1 : y / u < (K : ℚ) - 1 / 2 := by
    rw [div_lt_iff₀ hu]; linarith
  have h2 := roundHalfEven_lt K _ h1
  exact mul_lt_mul_of_pos_right (by exact_mod_cast h2) hu

theorem grid_le_of_even (u y : ℚ) (K : Int) (hu : 0 < u) (hK : K % 2 = 0)
    (h : (K : ℚ) * u - u / 2 ≤ y) :
    (K : ℚ) * u ≤ ((roundHalfEven (y / u) : Int) : ℚ) * u := by
  have h1 : (K : ℚ) - 1 / 2 ≤ y / u := by
    rw [le_div_iff₀ hu]; linarith
  have h2 := le_roundHalfEven_of_even K _ hK h1
  exact mul_le_mul_of_nonneg_right (by exact_mod_cast h2) hu.le

theorem grid_abs_sub_le (u y : ℚ) (hu : 0 < u) :
    |((roundHalfEven (y / u) : Int) : ℚ) * u - y| ≤ u / 2 := by
  have h := abs_roundHalfEven_sub_le (y / u)
  have : ((roundHalfEven (y / u) : Int) : ℚ) * u - y
      = (((roundHalfEven (y / u) : Int) : ℚ) - y / u) * u := by
    rw [sub_mul, div_mul_cancel₀ _ hu.ne']
  rw [this, abs_mul, abs_of_pos hu]
  have := mul_le_mul_of_nonneg_right h hu.le
  linarith

theorem grid_abs_sub_le_of_five (u y : ℚ) (m : Int) (hu : 0 < u) (h : 5 * y = (m : ℚ) * u) :
    |((roundHalfEven (y / u) : Int) : ℚ) * u - y| ≤ 2 / 5 * u := by
  have h5 : 5 * (y / u) = (m : ℚ) := by
    rw [← mul_div_assoc, h, mul_div_assoc, div_self hu.ne', mul_one]
  have h := abs_roundHalfEven_sub_le_of_five (y / u) m h5
  have : ((roundHalfEven (y / u) : Int) : ℚ) * u - y
      = (((roundHalfEven (y / u) : Int) : ℚ) - y / u) * u := by
    rw [sub_mul, div_mul_cancel₀ _ hu.ne']
  rw [this, abs_mul, abs_of_pos hu]
  exact mul_le_mul_of_nonneg_right h hu.le

/-- Facts about the rounded quotient of a positive sum below `2 ^ 48`. -/
theorem quotient_round (S : Int) (n : Nat) (hSpos : 0 < S) (hn : 0 < n)
    (hsum : S < 2 ^ 48) (hlen : n < 2 ^ 32) :
    ∃ E : Int, E ≤ 47 ∧ ((2 : ℚ) ^ (-2 : Int) ≤ (S : ℚ) / n → (2 : ℚ) ^ E ≤ (S : ℚ) / n) ∧
      (n : ℚ) * (2 : ℚ) ^ (E - 52) < 1 / 16 ∧
      roundDouble ((S : ℚ) / n)
        = ((roundHalfEven ((S : ℚ) / n / (2 : ℚ) ^ (E - 52)) : Int) : ℚ) * (2 : ℚ) ^ (E - 52) := by
  have hnq : (0 : ℚ) < n := by exact_mod_cast hn
  have hn1 : (1 : ℚ) ≤ n := by exact_mod_cast hn
  have hSq : (0 : ℚ) < (S : ℚ) := by exact_mod_cast hSpos
  have hSlt : (S : ℚ) < 2 ^ 48 := by exact_mod_cast hsum
  have hq : (0 : ℚ) < (S : ℚ) / n := div_pos hSq hnq
  obtain ⟨E, hE1, hE2, hE3, hr⟩ := roundDouble_grid _ hq.ne'
  refine ⟨E, ?_, ?_, ?_, hr⟩
  · have hqlt : |(S : ℚ) / n| < (2 : ℚ) ^ (48 : Int) := by
      rw [abs_of_pos hq, div_lt_iff₀ hnq]
      have : (2 : ℚ) ^ (48 : Int) = 2 ^ 48 := by norm_num
      rw [this]
      nlinarith
    have := ilog2_lt_of_abs_lt _ hq.ne' 48 hqlt
    rcases hE3 with h | h <;> omega
  · intro hlow
    have hge : -2 ≤ ilog2 ((S : ℚ) / n) :=
      le_ilog2_of_le_abs _ hq.ne' (-2) (by rwa [abs_of_pos hq])
    have hEeq : E = ilog2 ((S : ℚ) / n) := by rcases hE3 with h | h <;> omega
    have hspec := (ilog2_spec _ hq.ne').1
    rwa [abs_of_pos hq, ← hEeq] at hspec
  · have := mul_spacing_lt S n hSpos hn hlen 48 (by norm_num) hsum (by norm_num) E hE3
    have e : (2 : ℚ) ^ ((48 : Int) - 52) = 1 / 16 := by norm_num [zpow_neg]
    rwa [e] at this


/-- Facts about the rounded product with 2.5 of a positive double `a` with
`n * a < 2 ^ 48 + 1`. -/
theorem product_round (n : Nat) (a : ℚ) (hn : 0 < n) (hlen : n < 2 ^ 32) (ha : 0 < a)
    (hna : (n : ℚ) * a < 2 ^ 48 + 1) :
    ∃ E : Int, E ≤ 49 ∧ (∀ m : Int, (2 : ℚ) ^ m ≤ a * (5 / 2) → m ≤ E) ∧
      (n : ℚ) * (2 : ℚ) ^ (E - 52) < 1 / 4 ∧
      roundDouble (a * (5 / 2))
        = ((roundHalfEven (a * (5 / 2) / (2 : ℚ) ^ (E - 52)) : Int) : ℚ) * (2 : ℚ) ^ (E - 52) := by
  have hnq : (0 : ℚ) < n := by exact_mod_cast hn
  have hn1 : (1 : ℚ) ≤ n := by exact_mod_cast hn
  have h2 : (2 : ℚ) ≠ 0 := by norm_num
  have hy : (0 : ℚ) < a * (5 / 2) := by positivity
  have hale : a ≤ (n : ℚ) * a := by nlinarith
  obtain ⟨E, hE1, hE2, hE3, hr⟩ := roundDouble_grid _ hy.ne'
  refine ⟨E, ?_, ?_, ?_, hr⟩
  · have hylt : |a * (5 / 2)| < (2 : ℚ) ^ (50 : Int) := by
      rw [abs_of_pos hy]
      have : (2 : ℚ) ^ (50 : Int) = 2 ^ 50 := by norm_num
      rw [this]
      linarith
    have := ilog2_lt_of_abs_lt _ hy.ne' 50 hylt
    rcases hE3 with h | h <;> omega
  · intro m hm
    have := le_ilog2_of_le_abs _ hy.ne' m (by rwa [abs_of_pos hy])
    omega
  · rcases hE3 with h | h
    · have hspec := (ilog2_spec _ hy.ne').1
      rw [abs_of_pos hy, ← h] at hspec
      have e1 : (2 : ℚ) ^ (E - 52) = (2 : ℚ) ^ E * (2 : ℚ) ^ (-52 : Int) := by
        rw [← zpow_add₀ h2]; congr 1
      have e52 : (2 : ℚ) ^ (-52 : Int) = 1 / 2 ^ 52 := by norm_num [zpow_neg]
      have hny : (n : ℚ) * (2 : ℚ) ^ E ≤ (n : ℚ) * (a * (5 / 2)) :=
        mul_le_mul_of_nonneg_left hspec hnq.le
      have e3 : (n : ℚ) * (a * (5 / 2)) = 5 / 2 * ((n : ℚ) * a) := by ring
      have hb : (n : ℚ) * (2 : ℚ) ^ E < 2 ^ 50 := by
        rw [e3] at hny; linarith
      have e4 : (n : ℚ) * ((2 : ℚ) ^ E * (1 / 2 ^ 52)) = (n : ℚ) * (2 : ℚ) ^ E / 2 ^ 52 := by ring
      rw [e1, e52, e4, div_lt_iff₀ (by positivity)]
      linarith
    · rw [h]
      have hn32 : (n : ℚ) < (2 : ℚ) ^ (32 : Int) := by
        have : (n : ℚ) < ((2 ^ 32 : Nat) : ℚ) := by exact_mod_cast hlen
        rw [zpow_ofNat]; exact_mod_cast this
      have hpos : (0 : ℚ) < (2 : ℚ) ^ (-1022 - 52 : Int) := by positivity
      have h3 : (n : ℚ) * (2 : ℚ) ^ (-1022 - 52 : Int)
          < (2 : ℚ) ^ (32 : Int) * (2 : ℚ) ^ (-1022 - 52 : Int) :=
        mul_lt_mul_of_pos_right hn32 hpos
      rw [← zpow_add₀ h2] at h3
      refine lt_of_lt_of_le h3 ?_
      have : (1 : ℚ) / 4 = (2 : ℚ) ^ (-2 : Int) := by norm_num [zpow_neg]
      rw [this]
      exact zpow_le_zpow_right₀ (by norm_num) (by norm_num)

theorem int_mul_two_pow_even (L : Int) (k : Nat) (hk : 1 ≤ k) : (L * 2 ^ k) % 2 = 0 := by
  obtain ⟨j, rfl⟩ : ∃ j, k = j + 1 := ⟨k - 1, by omega⟩
  rw [pow_succ, ← mul_assoc]
  exact Int.mul_emod_left _ 2


theorem threshold_exact (S : Int) (n : Nat) (L : Int) (hS0 : 0 ≤ S) (hn : 0 < n)
    (hsum : S < 2 ^ 48) (hlen : n < 2 ^ 32) :
    ((L : ℚ) > roundDouble (roundDouble ((S : ℚ) / n) * (5 / 2))) ↔
      ((L : ℚ) > 5 / 2 * ((S : ℚ) / n)) := by
  have hnq : (0 : ℚ) < n := by exact_mod_cast hn
  by_cases hS : S = 0
  · rw [hS]; simp [roundDouble]
  have hSpos : 0 < S := by omega
  have hS1 : (1 : ℚ) ≤ (S : ℚ) := by exact_mod_cast hSpos
  have hSlt : (S : ℚ) < 2 ^ 48 := by exact_mod_cast hsum
  have hqS : (n : ℚ) * ((S : ℚ) / n) = S := mul_div_cancel₀ _ hnq.ne'
  have h2 : (2 : ℚ) ≠ 0 := by norm_num
  obtain ⟨Eq, hEq47, hEqlow, hnuq, hra⟩ := quotient_round S n hSpos hn hsum hlen
  have huq : (0 : ℚ) < (2 : ℚ) ^ (Eq - 52) := by positivity
  have herr := grid_abs_sub_le ((2 : ℚ) ^ (Eq - 52)) ((S : ℚ) / n) huq
  rw [← hra] at herr
  have herr1 := (abs_le.mp herr).1
  have herr2 := (abs_le.mp herr).2
  -- bounds multiplied by `n`
  have hna1 : (n : ℚ) * roundDouble ((S : ℚ) / n) ≤ S + (n : ℚ) * (2 : ℚ) ^ (Eq - 52) / 2 := by
    have h : roundDouble ((S : ℚ) / n) ≤ (S : ℚ) / n + (2 : ℚ) ^ (Eq - 52) / 2 := by linarith
    have := mul_le_mul_of_nonneg_left h hnq.le
    rw [mul_add, hqS] at this
    linarith
  have hna2 : (S : ℚ) - (n : ℚ) * (2 : ℚ) ^ (Eq - 52) / 2 ≤ (n : ℚ) * roundDouble ((S : ℚ) / n) := by
    have h : (S : ℚ) / n - (2 : ℚ) ^ (Eq - 52) / 2 ≤ roundDouble ((S : ℚ) / n) := by linarith
    have := mul_le_mul_of_nonneg_left h hnq.le
    rw [mul_sub, hqS] at this
    linarith
  have hapos : 0 < roundDouble ((S : ℚ) / n) := by
    have : (0 : ℚ) < (n : ℚ) * roundDouble ((S : ℚ) / n) := by linarith
    exact (mul_pos_iff_of_pos_left hnq).mp this
  obtain ⟨Ey, hEy49, hEylow, hnuy, hrb⟩ :=
    product_round n (roundDouble ((S : ℚ) / n)) hn hlen hapos (by linarith)
  have huy : (0 : ℚ) < (2 : ℚ) ^ (Ey - 52) := by positivity
  have hL := int_eq_mul_zpow L Ey (by omega)
  have hKeven : (L * 2 ^ (52 - Ey).toNat) % 2 = 0 :=
    int_mul_two_pow_even L _ (by omega)
  rw [hrb]
  have hny : (n : ℚ) * (roundDouble ((S : ℚ) / n) * (5 / 2))
      = 5 / 2 * ((n : ℚ) * roundDouble ((S : ℚ) / n)) := by ring
  have hnL : (n : ℚ) * (5 / 2 * ((S : ℚ) / n)) = 5 / 2 * S := by
    rw [← mul_assoc, mul_comm (n : ℚ) (5 / 2), mul_assoc, hqS]
  rcases lt_trichotomy (5 * S) (2 * (n : Int) * L) with hgt | heq | hlt
  · -- the exact comparison holds
    have hint : (5 * S + 1 : Int) ≤ 2 * (n : Int) * L := by omega
    have hq1 : (5 : ℚ) * S + 1 ≤ 2 * (n : ℚ) * L := by exact_mod_cast hint
    have hlhs : roundDouble ((S : ℚ) / n) * (5 / 2)
        < ((L * 2 ^ (52 - Ey).toNat : Int) : ℚ) * (2 : ℚ) ^ (Ey - 52)
          - (2 : ℚ) ^ (Ey - 52) / 2 := by
      rw [← hL]
      apply lt_of_mul_lt_mul_left _ hnq.le
      rw [hny, mul_sub]
      linarith
    have h1 := grid_lt _ _ _ huy hlhs
    rw [← hL] at h1
    have hrhs : (5 : ℚ) / 2 * ((S : ℚ) / n) < L := by
      apply lt_of_mul_lt_mul_left _ hnq.le
      rw [hnL]; linarith
    exact ⟨fun _ => hrhs, fun _ => h1⟩
  · -- the boundary: the new interval is exactly 2.5 times the mean
    have hq1 : (5 : ℚ) * S = 2 * (n : ℚ) * L := by exact_mod_cast heq
    have hq5 : (5 : ℚ) * ((S : ℚ) / n) = 2 * L := by
      apply mul_left_cancel₀ hnq.ne'
      rw [← mul_assoc, mul_comm (n : ℚ) 5, mul_assoc, hqS]
      linarith
    have hLpos : (1 : ℚ) ≤ L := by
      have : 0 < L := by
        by_contra hcon
        push_neg at hcon
        have : 2 * (n : Int) * L ≤ 0 := by
          have : (0 : Int) ≤ 2 * n := by omega
          nlinarith
        omega
      exact_mod_cast this
    have hLq := int_eq_mul_zpow L Eq (by omega)
    have hfive : 5 * ((S : ℚ) / n)
        = ((2 * (L * 2 ^ (52 - Eq).toNat) : Int) : ℚ) * (2 : ℚ) ^ (Eq - 52) := by
      rw [hq5]
      push_cast
      push_cast at hLq
      linarith
    have herr5 := grid_abs_sub_le_of_five _ _ _ huq hfive
    rw [← hra] at herr5
    have herr5a := (abs_le.mp herr5).1
    -- the spacing at the product is at least twice the spacing at the quotient
    have hlow : (2 : ℚ) ^ Eq ≤ (S : ℚ) / n := by
      apply hEqlow
      have : (2 : ℚ) ^ (-2 : Int) = 1 / 4 := by norm_num [zpow_neg]
      rw [this]
      linarith
    have huq2 : (2 : ℚ) ^ (Eq - 52) ≤ (2 : ℚ) ^ Eq / 2 := by
      have e : (2 : ℚ) ^ Eq / 2 = (2 : ℚ) ^ (Eq - 1) := by
        rw [zpow_sub₀ h2, zpow_one]
      rw [e]
      exact zpow_le_zpow_right₀ (by norm_num) (by omega)
    have hEy : Eq + 1 ≤ Ey := by
      apply hEylow
      rw [zpow_add₀ h2, zpow_one]
      linarith
    have huyq : 2 * (2 : ℚ) ^ (Eq - 52) ≤ (2 : ℚ) ^ (Ey - 52) := by
      have e : 2 * (2 : ℚ) ^ (Eq - 52) = (2 : ℚ) ^ (Eq + 1 - 52) := by
        have : Eq + 1 - 52 = (Eq - 52) + 1 := by ring
        rw [this, zpow_add₀ h2, zpow_one]; ring
      rw [e]
      exact zpow_le_zpow_right₀ (by norm_num) (by omega)
    have hlhs : ((L * 2 ^ (52 - Ey).toNat : Int) : ℚ) * (2 : ℚ) ^ (Ey - 52)
        - (2 : ℚ) ^ (Ey - 52) / 2 ≤ roundDouble ((S : ℚ) / n) * (5 / 2) := by
      rw [← hL]
      linarith
    have h1 := grid_le_of_even _ _ _ huy hKeven hlhs
    rw [← hL] at h1
    have hrhs : ¬ ((L : ℚ) > 5 / 2 * ((S : ℚ) / n)) := by
      intro h; linarith
    exact ⟨fun h => absurd h (not_lt.mpr h1), fun h => absurd h hrhs⟩
  · -- the exact comparison fails
    have hint : (2 * (n : Int) * L + 1 : Int) ≤ 5 * S := by omega
    have hq1 : 2 * (n : ℚ) * L + 1 ≤ (5 : ℚ) * S := by exact_mod_cast hint
    have hlhs : ((L * 2 ^ (52 - Ey).toNat : Int) : ℚ) * (2 : ℚ) ^ (Ey - 52)
        ≤ roundDouble ((S : ℚ) / n) * (5 / 2) := by
      rw [← hL]
      apply le_of_mul_le_mul_left _ hnq
      rw [hny]
      linarith
    have h1 := grid_le _ _ _ huy hlhs
    rw [← hL] at h1
    have hrhs : ¬ ((L : ℚ) > 5 / 2 * ((S : ℚ) / n)) := by
      intro h
      have := mul_lt_mul_of_pos_left h hnq
      rw [hnL] at this
      linarith
    exact ⟨fun h => absurd h (not_lt.mpr h1), fun h => absurd h hrhs⟩

/-- For non-negative intervals, fewer than `2 ^ 32` of them, whose sum is below
`2 ^ 48`, the comparison of line 68 agrees with the comparison against 2.5 times
the exact mean. -/
theorem doubleThreshold_exact (xs : List Int) (L : Int) (hne : xs ≠ [])
    (hnn : ∀ x ∈ xs, 0 ≤ x) (hsum : xs.sum < 2 ^ 48) (hlen : xs.length < 2 ^ 32) :
    ((L : ℚ) > roundDouble (doubleMean xs * (5 / 2))) ↔ ((L : ℚ) > 5 / 2 * mean xs) := by
  have hn : 0 < xs.length := List.length_pos.mpr hne
  have hS0 : 0 ≤ xs.sum := List.sum_nonneg hnn
  have hexact := sumIntervals_exact xs hnn (by omega)
  unfold doubleMean mean
  rw [hexact]
  exact threshold_exact xs.sum xs.length L hS0 hn hsum hlen

/-! ## Claims about the tracker -/

/-- C1: starting from a freshly constructed tracker, after N >= 1 key presses
whose clock readings are non-negative and non-decreasing, `intervals` has
length N-1 and its entry at index i is the gap between the (i+1)-th and the
(i+2)-th clock reading. -/
theorem C1_intervals_are_consecutive_gaps (evs : List (KeyEvent × Int))
    (hN : 1 ≤ evs.length)
    (hnonneg : ∀ t ∈ evs.map Prod.snd, 0 ≤ t)
    (hmono : (evs.map Prod.snd).Sorted (· ≤ ·)) :
    (pressAll useTypingTracker evs).intervals.length = evs.length - 1 ∧
    ∀ i : Nat, i + 1 < evs.length →
      (pressAll useTypingTracker evs).intervals[i]?
        = some ((evs.map Prod.snd).getD (i + 1) 0 - (evs.map Prod.snd).getD i 0) := by
  have _ := hN
  have _ := hnonneg
  have _ := hmono
  refine ⟨by simp [pressAll_intervals, gaps_length], ?_⟩
  intro i hi
  rw [pressAll_intervals]
  exact gaps_getElem? _ i (by simpa using hi)

/-- An instance of C1: three key presses at 0, 100 and 250 ms. -/
theorem C1_intervals_are_consecutive_gaps_witness :
    (pressAll useTypingTracker [(⟨"a"⟩, 0), (⟨"b"⟩, 100), (⟨"Backspace"⟩, 250)]).intervals.length
        = 3 - 1 ∧
    ∀ i : Nat, i + 1 < 3 →
      (pressAll useTypingTracker [(⟨"a"⟩, 0), (⟨"b"⟩, 100), (⟨"Backspace"⟩, 250)]).intervals[i]?
        = some (([0, 100, 250] : List Int).getD (i + 1) 0 - ([0, 100, 250] : List Int).getD i 0) :=
  C1_intervals_are_consecutive_gaps [(⟨"a"⟩, 0), (⟨"b"⟩, 100), (⟨"Backspace"⟩, 250)]
    (by decide) (by decide) (by decide)

/-- C2, evaluated where the code departs from it: after key presses at 0, 100
and 200 ms the claim gives `duration = 200 - 0`; the code re-initialises
`startTime` on the second press, because the stored `0` is falsy on line 30,
and `duration` is 100.  With a single press at 0, and with no press, `duration`
is 0. -/
theorem C2_duration_with_first_press_at_zero :
    (pressAll useTypingTracker [(⟨"a"⟩, 0), (⟨"b"⟩, 100), (⟨"c"⟩, 200)]).startTime = some 100 ∧
    duration (pressAll useTypingTracker [(⟨"a"⟩, 0), (⟨"b"⟩, 100), (⟨"c"⟩, 200)]) = 100 ∧
    duration (pressAll useTypingTracker [(⟨"a"⟩, 0), (⟨"b"⟩, 100), (⟨"c"⟩, 200)]) ≠ 200 - 0 ∧
    duration (pressAll useTypingTracker [(⟨"a"⟩, 0)]) = 0 ∧
    duration useTypingTracker = 0 := by
  decide

/-- C3 fails as stated: after key presses at 1, 10^15 + 1, 2 * 10^15 + 1 and
3 * 10^15 + 2 ms, a fifth press at 5.5 * 10^15 + 3 ms appends the interval
2500000000000001 at index 3.  It exceeds 2.5 times the exact mean of the earlier
intervals, which is 2500000000000000.8333, yet no index is appended: line 62
rounds the quotient to 1000000000000000.375 and line 68 rounds the product to
2500000000000001. -/
theorem C3_exact_mean_comparison_fails :
    (pressAll useTypingTracker largeGapPresses).intervals
      = [1000000000000000, 1000000000000000, 1000000000000001] ∧
    (pressAll useTypingTracker (largeGapPresses ++ [(⟨"e"⟩, 5500000000000003)])).intervals
      = [1000000000000000, 1000000000000000, 1000000000000001, 2500000000000001] ∧
    (3 ≤ (pressAll useTypingTracker largeGapPresses).intervals.length ∧
      ((2500000000000001 : Int) : ℚ)
        > 5 / 2 * mean (pressAll useTypingTracker largeGapPresses).intervals) ∧
    doubleMean (pressAll useTypingTracker largeGapPresses).intervals
      = 8000000000000003 / 8 ∧
    roundDouble (doubleMean (pressAll useTypingTracker largeGapPresses).intervals * (5 / 2))
      = 2500000000000001 ∧
    (pressAll useTypingTracker (largeGapPresses ++ [(⟨"e"⟩, 5500000000000003)])).anomalies
      = [] := by
  refine ⟨by decide, by decide!, ⟨by decide, by decide!⟩, by decide!, by decide!, by decide!⟩

/-- C3 as amended: for every tracker state and every key press that appends a
new interval at index i (a previous key sample exists), the index i is appended
to `anomalies` if and only if i >= 3 and the new interval exceeds the product of
2.5 and the mean of the earlier intervals as the code computes them, in double
arithmetic: the sum, its quotient by the count and the product are each rounded
to the nearest double.  Otherwise `anomalies` is left as it was, in particular
whenever i < 3.  When the earlier intervals are non-negative, fewer than 2^32
in number and sum to less than 2^48, this is the comparison with 2.5 times
their exact arithmetic mean.  Key presses at 0, 100, 200, 300, 900 give
intervals [100,100,100,600] and anomalies [3]. -/
theorem C3_anomaly_iff_exceeds_double_threshold (s : Tracker) (event : KeyEvent)
    (t lastKeyTime : Int) (hlast : s.keyTimes.getLast? = some lastKeyTime) :
    (handleKeyPress s event t).intervals = s.intervals ++ [t - lastKeyTime] ∧
    ((handleKeyPress s event t).anomalies = s.anomalies ++ [s.intervals.length] ↔
      (3 ≤ s.intervals.length ∧
        ((t - lastKeyTime : Int) : ℚ) > roundDouble (doubleMean s.intervals * (5 / 2)))) ∧
    ((handleKeyPress s event t).anomalies = s.anomalies ↔
      ¬ (3 ≤ s.intervals.length ∧
        ((t - lastKeyTime : Int) : ℚ) > roundDouble (doubleMean s.intervals * (5 / 2)))) ∧
    (s.intervals.length < 3 → (handleKeyPress s event t).anomalies = s.anomalies) ∧
    ((∀ x ∈ s.intervals, 0 ≤ x) → s.intervals.sum < 2 ^ 48 → s.intervals.length < 2 ^ 32 →
      ((handleKeyPress s event t).anomalies = s.anomalies ++ [s.intervals.length] ↔
        (3 ≤ s.intervals.length ∧
          ((t - lastKeyTime : Int) : ℚ) > 5 / 2 * mean s.intervals))) ∧
    (pressAll useTypingTracker
        [(⟨"a"⟩, 0), (⟨"b"⟩, 100), (⟨"c"⟩, 200), (⟨"d"⟩, 300), (⟨"e"⟩, 900)]).intervals
      = [100, 100, 100, 600] ∧
    (pressAll useTypingTracker
        [(⟨"a"⟩, 0), (⟨"b"⟩, 100), (⟨"c"⟩, 200), (⟨"d"⟩, 300), (⟨"e"⟩, 900)]).anomalies
      = [3] := by
  have key := handleKeyPress_anomalies_of_last s event t lastKeyTime hlast
  have hiff : (handleKeyPress s event t).anomalies = s.anomalies ++ [s.intervals.length] ↔
      (3 ≤ s.intervals.length ∧
        ((t - lastKeyTime : Int) : ℚ) > roundDouble (doubleMean s.intervals * (5 / 2))) := by
    rw [key]
    by_cases h : 3 ≤ s.intervals.length ∧
        ((t - lastKeyTime : Int) : ℚ) > roundDouble (doubleMean s.intervals * (5 / 2))
    · rw [if_pos h]
      exact ⟨fun _ => h, fun _ => rfl⟩
    · rw [if_neg h]
      exact ⟨fun heq => absurd (congrArg List.length heq) (by simp), fun hc => absurd hc h⟩
  refine ⟨?_, hiff, ?_, ?_, ?_, by decide!, by decide!⟩
  · simp [handleKeyPress_intervals, newInterval, hlast]
  · rw [key]
    by_cases h : 3 ≤ s.intervals.length ∧
        ((t - lastKeyTime : Int) : ℚ) > roundDouble (doubleMean s.intervals * (5 / 2))
    · rw [if_pos h]
      exact ⟨fun heq => absurd (congrArg List.length heq) (by simp), fun hc => absurd h hc⟩
    · rw [if_neg h]
      exact ⟨fun _ => h, fun _ => rfl⟩
  · intro h
    rw [key, if_neg (by omega)]
  · intro hnn hsum hlen
    rw [hiff]
    constructor
    · rintro ⟨h3, hgt⟩
      have hne : s.intervals ≠ [] := by
        intro h; rw [h] at h3; simp at h3
      exact ⟨h3, (doubleThreshold_exact _ _ hne hnn hsum hlen).mp hgt⟩
    · rintro ⟨h3, hgt⟩
      have hne : s.intervals ≠ [] := by
        intro h; rw [h] at h3; simp at h3
      exact ⟨h3, (doubleThreshold_exact _ _ hne hnn hsum hlen).mpr hgt⟩

/-- An instance of the amended C3: the fifth key press of the scenario, at
900 ms after presses at 0, 100, 200 and 300 ms, appends index 3 to
`anomalies`. -/
theorem C3_anomaly_iff_exceeds_double_threshold_witness :
    (Tracker.mk [100, 100, 100] [] [0, 100, 200, 300] 0 (some 100) (some 300)).keyTimes.getLast?
      = some 300 ∧
    (handleKeyPress (Tracker.mk [100, 100, 100] [] [0, 100, 200, 300] 0 (some 100) (some 300))
      ⟨"e"⟩ 900).anomalies = [] ++ [3] :=
  ⟨by decide,
   (C3_anomaly_iff_exceeds_double_threshold
      (Tracker.mk [100, 100, 100] [] [0, 100, 200, 300] 0 (some 100) (some 300))
      ⟨"e"⟩ 900 300 (by decide)).2.1.mpr ⟨by decide, by decide!⟩⟩

/-- C4 fails as stated: after key presses at 1, 2, 3 and 6900000000000002 ms the
intervals are 1, 1 and 6899999999999999, their exact mean is
2300000000000000.3333 and `floor(mean + 1/2)` is 2300000000000000; line 83
rounds the quotient to the double 2300000000000000.5 and `averageInterval` is
2300000000000001. -/
theorem C4_rounded_exact_mean_fails :
    (pressAll useTypingTracker longPausePresses).intervals = [1, 1, 6899999999999999] ∧
    ⌊mean (pressAll useTypingTracker longPausePresses).intervals + 1 / 2⌋
      = 2300000000000000 ∧
    doubleMean (pressAll useTypingTracker longPausePresses).intervals
      = 4600000000000001 / 2 ∧
    averageInterval (pressAll useTypingTracker longPausePresses) = 2300000000000001 ∧
    averageInterval (pressAll useTypingTracker longPausePresses)
      ≠ ⌊mean (pressAll useTypingTracker longPausePresses).intervals + 1 / 2⌋ := by
  refine ⟨by decide, by decide!, by decide!, by decide!, by decide!⟩

/-- C4 as amended: `averageInterval` is 0 when `intervals` is empty, and
otherwise it is the mean as the code computes it in double arithmetic (the sum
and its quotient by the count each rounded to the nearest double) rounded to the
nearest integer, a half rounding toward +infinity: it equals
`floor(q + 1/2)` for that double `q`, no integer is closer to `q`, and an integer
equally close is not larger.  When the intervals are non-negative, fewer than
2^32 in number and sum to less than 2^52, this is the exact mean `sum / length`
rounded in the same way, `floor(sum/length + 1/2)`.  Intervals
[100,100,100,600] give 225. -/
theorem C4_averageInterval_is_rounded_double_mean (s : Tracker) :
    averageInterval s = (if s.intervals = [] then 0 else ⌊doubleMean s.intervals + 1 / 2⌋) ∧
    (s.intervals ≠ [] →
      (∀ z : Int, |((averageInterval s : Int) : ℚ) - doubleMean s.intervals|
          ≤ |(z : ℚ) - doubleMean s.intervals|) ∧
      (∀ z : Int, |(z : ℚ) - doubleMean s.intervals|
          = |((averageInterval s : Int) : ℚ) - doubleMean s.intervals| →
        z ≤ averageInterval s)) ∧
    ((∀ x ∈ s.intervals, 0 ≤ x) → s.intervals.sum < 2 ^ 52 → s.intervals.length < 2 ^ 32 →
      averageInterval s = (if s.intervals = [] then 0 else ⌊mean s.intervals + 1 / 2⌋) ∧
      (s.intervals ≠ [] →
        averageInterval s
          = (2 * s.intervals.sum + s.intervals.length) / (2 * (s.intervals.length : Int)))) ∧
    averageInterval (pressAll useTypingTracker
        [(⟨"a"⟩, 0), (⟨"b"⟩, 100), (⟨"c"⟩, 200), (⟨"d"⟩, 300), (⟨"e"⟩, 900)]) = 225 := by
  refine ⟨averageInterval_eq s, fun h => ?_, fun hnn hsum hlen => ?_, by decide!⟩
  · have hav : averageInterval s = ⌊doubleMean s.intervals + 1 / 2⌋ := by
      rw [averageInterval_eq, if_neg h]
    refine ⟨?_, ?_⟩
    · intro z
      rw [hav]
      exact floor_add_half_nearest _ z
    · intro z hz
      rw [hav] at hz ⊢
      exact floor_add_half_tie _ z hz
  · have hex : averageInterval s = (if s.intervals = [] then 0 else ⌊mean s.intervals + 1 / 2⌋) := by
      rw [averageInterval_eq]
      by_cases h : s.intervals = []
      · rw [if_pos h, if_pos h]
      · rw [if_neg h, if_neg h, floor_doubleMean_eq _ h hnn hsum hlen]
    refine ⟨hex, fun h => ?_⟩
    rw [hex, if_neg h, mean_add_half _ h]

/-- C5: for every tracker state (so for every reachable one), `resetTracking`
yields a state whose exposed values `intervals`, `anomalies`, `backspaceCount`,
`duration`, `averageInterval`, `metricsJson` and `formattedJson` are those of a
freshly constructed tracker, and after every later sequence of key presses the
exposed values are those the same presses give on a fresh tracker. -/
theorem C5_reset_equals_fresh (s : Tracker) :
    resetTracking s = useTypingTracker ∧
    exposed (resetTracking s) = exposed useTypingTracker ∧
    exposed useTypingTracker
      = { intervals := [], anomalies := [], backspaceCount := 0, duration := 0,
          averageInterval := 0,
          metricsJson := { intervals := [], duration := 0, backspaceCount := 0 },
          formattedJson :=
            "\x7b\n  \"intervals\": [],\n  \"duration\": 0,\n  \"backspaceCount\": 0\n\x7d" } ∧
    ∀ evs : List (KeyEvent × Int),
      exposed (pressAll (resetTracking s) evs) = exposed (pressAll useTypingTracker evs) := by
  rw [resetTracking_eq]
  exact ⟨rfl, rfl, by decide, fun _ => rfl⟩

/-- C6: starting from a fresh tracker, `backspaceCount` is the number of events
of the sequence whose key is exactly `Backspace`; a key press with any other key
leaves the counter as it was, a `Backspace` press adds one in every state, the
first key press included. -/
theorem C6_backspaceCount_counts_backspaces (evs : List (KeyEvent × Int)) :
    (pressAll useTypingTracker evs).backspaceCount
      = (evs.filter (fun e => decide (e.1.key = "Backspace"))).length ∧
    (∀ (s : Tracker) (event : KeyEvent) (t : Int), event.key ≠ "Backspace" →
      (handleKeyPress s event t).backspaceCount = s.backspaceCount) ∧
    (∀ (s : Tracker) (event : KeyEvent) (t : Int), event.key = "Backspace" →
      (handleKeyPress s event t).backspaceCount = s.backspaceCount + 1) ∧
    (∀ t : Int, (handleKeyPress useTypingTracker ⟨"Backspace"⟩ t).backspaceCount = 1) := by
  refine ⟨?_, ?_, ?_, ?_⟩
  · rw [pressAll_backspaceCount, List.countP_eq_length_filter]
    simp [useTypingTracker]
  · intro s event t hk
    simp [handleKeyPress_backspaceCount, hk]
  · intro s event t hk
    simp [handleKeyPress_backspaceCount, hk]
  · intro t
    simp [handleKeyPress_backspaceCount, useTypingTracker]

/-- C7 fails as stated: a snapshot read after key presses at 1000 and 1100 ms
shows intervals [100]; after one more key press at 1300 ms the intervals of that
same snapshot are [100, 200].  Line 89 stores the array held by the ref, and
line 46 pushes onto that array. -/
theorem C7_snapshot_intervals_not_a_copy :
    snapshotSession.deref (Session.metricsJson snapshotSession).1.intervals = some [100] ∧
    (Session.handleKeyPress snapshotSession ⟨"c"⟩ 1300).deref
        (Session.metricsJson snapshotSession).1.intervals = some [100, 200] ∧
    (Session.handleKeyPress snapshotSession ⟨"c"⟩ 1300).deref
        (Session.metricsJson snapshotSession).1.intervals
      ≠ snapshotSession.deref (Session.metricsJson snapshotSession).1.intervals := by
  decide

/-- C7 as amended: reading the snapshot leaves the session unchanged, and the
snapshot holds `duration` and `backspaceCount` as the numbers they were at the
read; its `intervals` is the array held by the session, so after any number of
later key presses it shows the session's current intervals, of which the
intervals at the read are a prefix. -/
theorem C7_snapshot_shares_intervals (h : Session) (evs : List (KeyEvent × Int)) :
    (Session.metricsJson h).2 = h ∧
    (Session.metricsJson h).1.duration = duration h.tracker ∧
    (Session.metricsJson h).1.backspaceCount = h.tracker.backspaceCount ∧
    h.deref (Session.metricsJson h).1.intervals = some h.tracker.intervals ∧
    (Session.pressAll h evs).deref (Session.metricsJson h).1.intervals
      = some (pressAll h.tracker evs).intervals ∧
    h.tracker.intervals <+: (pressAll h.tracker evs).intervals := by
  refine ⟨rfl, rfl, rfl, Session.deref_live h, ?_, pressAll_intervals_extends _ _⟩
  have hlive := Session.deref_live (Session.pressAll h evs)
  rw [Session.pressAll_detached, Session.pressAll_tracker] at hlive
  exact hlive

end TypingTracker

namespace Api

/-! ## Input validation -/

theorem validateInput_eq_none_iff (userId keyprint : JsVal) :
    validateInput userId keyprint = none ↔
      truthy userId = true ∧ truthy keyprint = true ∧
        ∃ x xs, getProp keyprint "intervals" = .arr (x :: xs) := by
  unfold validateInput
  cases hu : truthy userId <;> cases hk : truthy keyprint <;> simp
  cases hi : getProp keyprint "intervals" with
  | arr items => cases items <;> simp [isArray]
  | _ => simp [isArray]

theorem storeKeyprint_requests (fetch : Request → FetchOutcome) (userId keyprint : JsVal) :
    (storeKeyprint fetch userId keyprint).requests
      = match validateInput userId keyprint with
        | some _ => []
        | none => [postRequest "/api/store-keyprint" (requestBody userId keyprint)] := by
  unfold storeKeyprint
  cases validateInput userId keyprint <;> rfl

theorem verifyKeyprint_requests (fetch : Request → FetchOutcome) (userId keyprint : JsVal) :
    (verifyKeyprint fetch userId keyprint).requests
      = match validateInput userId keyprint with
        | some _ => []
        | none => [postRequest "/api/verify-keyprint" (requestBody userId keyprint)] := by
  unfold verifyKeyprint
  cases validateInput userId keyprint <;> rfl

theorem storeKeyprint_result_of_invalid (fetch : Request → FetchOutcome) (userId keyprint : JsVal)
    (e : JsError) (h : validateInput userId keyprint = some e) :
    (storeKeyprint fetch userId keyprint).result = .error e := by
  unfold storeKeyprint; rw [h]

theorem verifyKeyprint_result_of_invalid (fetch : Request → FetchOutcome) (userId keyprint : JsVal)
    (e : JsError) (h : validateInput userId keyprint = some e) :
    (verifyKeyprint fetch userId keyprint).result = .error e := by
  unfold verifyKeyprint; rw [h]

theorem validateInput_some (userId keyprint : JsVal) (e : JsError)
    (h : validateInput userId keyprint = some e) :
    (truthy userId = false ∧ e = newError "User ID is required") ∨
    (truthy userId = true ∧ e = newError "Valid keyprint data is required") := by
  unfold validateInput at h
  cases hu : truthy userId
  · left; simp [hu] at h; exact ⟨rfl, h.symm⟩
  · right
    simp only [hu, Bool.not_true, Bool.false_eq_true, if_false] at h
    split at h
    · simp at h; exact ⟨rfl, h.symm⟩
    · simp at h


theorem validateInput_isSome_iff (userId keyprint : JsVal) :
    (∃ e, validateInput userId keyprint = some e) ↔
      (truthy userId = false ∨ truthy keyprint = false ∨
        (∀ items, getProp keyprint "intervals" ≠ .arr items) ∨
        getProp keyprint "intervals" = .arr []) := by
  have hnone := validateInput_eq_none_iff userId keyprint
  constructor
  · rintro ⟨e, he⟩
    by_contra hcon
    push_neg at hcon
    obtain ⟨hu, hk, ⟨items, hitems⟩, hne⟩ := hcon
    have : validateInput userId keyprint = none := by
      rw [hnone]
      refine ⟨by simpa using hu, by simpa using hk, ?_⟩
      cases items with
      | nil => exact absurd hitems hne
      | cons x xs => exact ⟨x, xs, hitems⟩
    rw [this] at he
    cases he
  · intro hinv
    cases hv : validateInput userId keyprint with
    | some e => exact ⟨e, rfl⟩
    | none =>
      exfalso
      obtain ⟨hu, hk, x, xs, hx⟩ := hnone.mp hv
      rcases hinv with h | h | h | h
      · rw [hu] at h; cases h
      · rw [hk] at h; cases h
      · exact h _ hx
      · rw [hx] at h; cases h

/-! ## Response normalisation -/

theorem typeof_eq_number (v : JsVal) : (typeof v == "number") = true ↔ ∃ n, v = .num n := by
  cases v <;> simp [typeof]

theorem verifyKeyprint_result_of_ok (fetch : Request → FetchOutcome) (userId keyprint : JsVal)
    (status : Nat) (data : JsVal)
    (hvalid : validateInput userId keyprint = none)
    (hfetch : fetch (postRequest "/api/verify-keyprint" (requestBody userId keyprint))
      = .response true status (.ok data))
    (hobj : truthy data = true ∧ typeof data = "object") :
    (verifyKeyprint fetch userId keyprint).result = .ok (normalize (resultData data)) := by
  unfold verifyKeyprint
  simp [hvalid, hfetch, hobj.1, hobj.2, catchFetchError]

/-- The `similarity` computed on lines 153-155 from the payload. -/
theorem normalize_shape (payload : JsVal) :
    ∃ (m : Bool) (x : JsNumber),
      normalize payload = .obj [("match_", .bool m), ("similarity", .num x)] ∧
      (m = true ↔ getProp payload "match_" = .bool true) ∧
      x ≠ .nan ∧
      (∀ n, getProp payload "similarity" = .num n → n ≠ .nan → x = n) ∧
      ((∀ n, getProp payload "similarity" ≠ .num n) → x = .fin 0) ∧
      (getProp payload "similarity" = .num .nan → x = .fin 0) := by
  have hm : ∃ m : Bool, (match getProp payload "match_" with
        | .bool true => true
        | _ => false) = m ∧ (m = true ↔ getProp payload "match_" = .bool true) := by
    cases hmv : getProp payload "match_" with
    | bool b => cases b <;> simp
    | _ => simp
  obtain ⟨m, hmeq, hmiff⟩ := hm
  unfold normalize
  rw [hmeq]
  cases hs : getProp payload "similarity" with
  | num n =>
    cases n with
    | nan => exact ⟨m, .fin 0, by simp [typeof, isNaN], hmiff, by simp, by simp, by simp, by simp⟩
    | posInf => exact ⟨m, .posInf, by simp [typeof, isNaN], hmiff, by simp, by simp, by simp, by simp⟩
    | negInf => exact ⟨m, .negInf, by simp [typeof, isNaN], hmiff, by simp, by simp, by simp, by simp⟩
    | fin q => exact ⟨m, .fin q, by simp [typeof, isNaN], hmiff, by simp, by simp, by simp, by simp⟩
  | _ => exact ⟨m, .fin 0, by simp [typeof, isNaN], hmiff, by simp, by simp, by simp, by simp⟩

/-! ## Claims about the client -/

/-- C8: for every `userId` and `keyprint`, when `userId` is falsy, or `keyprint`
is falsy, or `keyprint.intervals` is not an array or is an empty array, both
`storeKeyprint` and `verifyKeyprint` fail with the validation error (`User ID is
required` when `userId` is falsy, `Valid keyprint data is required` otherwise)
and issue no request; in every other case validation passes and each issues
exactly one request.  `storeKeyprint("", snapshot)` fails with `User ID is
required` without a request. -/
theorem C8_validation_fails_without_request (fetch : Request → FetchOutcome) (userId keyprint : JsVal) :
    ((truthy userId = false ∨ truthy keyprint = false ∨
        (∀ items, getProp keyprint "intervals" ≠ .arr items) ∨
        getProp keyprint "intervals" = .arr []) →
      (storeKeyprint fetch userId keyprint).requests = [] ∧
      (verifyKeyprint fetch userId keyprint).requests = [] ∧
      ∃ e : JsError,
        (storeKeyprint fetch userId keyprint).result = .error e ∧
        (verifyKeyprint fetch userId keyprint).result = .error e ∧
        ((truthy userId = false ∧ e = newError "User ID is required") ∨
         (truthy userId = true ∧ e = newError "Valid keyprint data is required"))) ∧
    (¬ (truthy userId = false ∨ truthy keyprint = false ∨
        (∀ items, getProp keyprint "intervals" ≠ .arr items) ∨
        getProp keyprint "intervals" = .arr []) →
      validateInput userId keyprint = none ∧
      (storeKeyprint fetch userId keyprint).requests
        = [postRequest "/api/store-keyprint" (requestBody userId keyprint)] ∧
      (verifyKeyprint fetch userId keyprint).requests
        = [postRequest "/api/verify-keyprint" (requestBody userId keyprint)]) ∧
    (storeKeyprint fetch (.str "") sampleKeyprint).result
      = .error { name := "Error", message := "User ID is required" } ∧
    (storeKeyprint fetch (.str "") sampleKeyprint).requests = [] := by
  refine ⟨fun hinv => ?_, fun hval => ?_, rfl, rfl⟩
  · obtain ⟨e, he⟩ := (validateInput_isSome_iff userId keyprint).mpr hinv
    refine ⟨?_, ?_, e, storeKeyprint_result_of_invalid fetch _ _ e he,
      verifyKeyprint_result_of_invalid fetch _ _ e he, validateInput_some _ _ e he⟩
    · rw [storeKeyprint_requests, he]
    · rw [verifyKeyprint_requests, he]
  · have hnone : validateInput userId keyprint = none := by
      cases hv : validateInput userId keyprint with
      | none => rfl
      | some e => exact absurd ((validateInput_isSome_iff userId keyprint).mp ⟨e, hv⟩) hval
    refine ⟨hnone, ?_, ?_⟩
    · rw [storeKeyprint_requests, hnone]
    · rw [verifyKeyprint_requests, hnone]

/-- C9 fails as stated: for the response `{data: {match_: true, similarity: 0.87}}`
the value returned by `verifyKeyprint` is `{match_: true, similarity: 0.87}`; it
has no field `isMatch`. -/
theorem C9_result_has_no_isMatch_field :
    (verifyKeyprint (respondWith scenarioResponse) (.str "user-1") sampleKeyprint).result
      = .ok (.obj [("match_", .bool true), ("similarity", .num (.fin (87 / 100)))]) ∧
    (verifyKeyprint (respondWith scenarioResponse) (.str "user-1") sampleKeyprint).result
      ≠ .ok (.obj [("isMatch", .bool true), ("similarity", .num (.fin (87 / 100)))]) ∧
    getProp (normalize (resultData scenarioResponse)) "isMatch" = .undefined := by
  refine ⟨rfl, ?_, rfl⟩
  have hres : (verifyKeyprint (respondWith scenarioResponse) (.str "user-1") sampleKeyprint).result
      = .ok (.obj [("match_", .bool true), ("similarity", .num (.fin (87 / 100)))]) := rfl
  rw [hres]
  simp

/-- C9 as amended: for every valid input and every response with ok status
whose body is a JSON object, `verifyKeyprint` returns a record with exactly the
two fields `match_` (a boolean) and `similarity` (a number), in which `match_`
is true if and only if the `match_` field of the payload `data.data || data` is
the boolean `true`. -/
theorem C9_verify_result_shape (fetch : Request → FetchOutcome) (userId keyprint : JsVal)
    (status : Nat) (data : JsVal)
    (hvalid : validateInput userId keyprint = none)
    (hfetch : fetch (postRequest "/api/verify-keyprint" (requestBody userId keyprint))
      = .response true status (.ok data))
    (hobj : truthy data = true ∧ typeof data = "object") :
    ∃ (m : Bool) (x : JsNumber),
      (verifyKeyprint fetch userId keyprint).result
        = .ok (.obj [("match_", .bool m), ("similarity", .num x)]) ∧
      (m = true ↔ getProp (resultData data) "match_" = .bool true) := by
  obtain ⟨m, x, hshape, hm, _⟩ := normalize_shape (resultData data)
  exact ⟨m, x,
    by rw [verifyKeyprint_result_of_ok fetch userId keyprint status data hvalid hfetch hobj, hshape],
    hm⟩

/-- An instance of the amended C9: the scenario response, sent with status 200
to a valid call. -/
theorem C9_verify_result_shape_witness :
    validateInput (.str "user-1") sampleKeyprint = none ∧
    ∃ (m : Bool) (x : JsNumber),
      (verifyKeyprint (respondWith scenarioResponse) (.str "user-1") sampleKeyprint).result
        = .ok (.obj [("match_", .bool m), ("similarity", .num x)]) ∧
      (m = true ↔ getProp (resultData scenarioResponse) "match_" = .bool true) :=
  ⟨rfl, C9_verify_result_shape (respondWith scenarioResponse) (.str "user-1") sampleKeyprint
    200 scenarioResponse rfl rfl ⟨rfl, rfl⟩⟩

/-- C10: for every valid input and every response with ok status whose body is
a JSON object, the `similarity` returned by `verifyKeyprint` is the payload's
`similarity` field when that field is a number other than `NaN`, and 0 when the
field is not a number or is `NaN`; it is never `NaN`.  An absent field, `null`,
the string `NaN-ish`, a boolean, an object and `NaN` all give 0. -/
theorem C10_similarity_defaults_to_zero (fetch : Request → FetchOutcome)
    (userId keyprint : JsVal) (status : Nat) (data : JsVal)
    (hvalid : validateInput userId keyprint = none)
    (hfetch : fetch (postRequest "/api/verify-keyprint" (requestBody userId keyprint))
      = .response true status (.ok data))
    (hobj : truthy data = true ∧ typeof data = "object") :
    (∃ (m : Bool) (x : JsNumber),
      (verifyKeyprint fetch userId keyprint).result
        = .ok (.obj [("match_", .bool m), ("similarity", .num x)]) ∧
      x ≠ .nan ∧
      (∀ n, getProp (resultData data) "similarity" = .num n → n ≠ .nan → x = n) ∧
      ((∀ n, getProp (resultData data) "similarity" ≠ .num n) → x = .fin 0) ∧
      (getProp (resultData data) "similarity" = .num .nan → x = .fin 0)) ∧
    getProp (normalize (.obj [("match_", .bool true)])) "similarity" = .num (.fin 0) ∧
    getProp (normalize (.obj [("similarity", .null)])) "similarity" = .num (.fin 0) ∧
    getProp (normalize (.obj [("similarity", .str "NaN-ish")])) "similarity" = .num (.fin 0) ∧
    getProp (normalize (.obj [("similarity", .bool true)])) "similarity" = .num (.fin 0) ∧
    getProp (normalize (.obj [("similarity", .obj [])])) "similarity" = .num (.fin 0) ∧
    getProp (normalize (.obj [("similarity", .num .nan)])) "similarity" = .num (.fin 0) := by
  refine ⟨?_, rfl, rfl, rfl, rfl, rfl, rfl⟩
  obtain ⟨m, x, hshape, _, hx⟩ := normalize_shape (resultData data)
  exact ⟨m, x,
    by rw [verifyKeyprint_result_of_ok fetch userId keyprint status data hvalid hfetch hobj, hshape],
    hx⟩

/-- An instance of C10: a response `{match_: false, similarity: "NaN-ish"}`
with status 200 to a valid call. -/
theorem C10_similarity_defaults_to_zero_witness :
    validateInput (.str "user-2") sampleKeyprint = none ∧
    (verifyKeyprint
        (respondWith (.obj [("match_", .bool false), ("similarity", .str "NaN-ish")]))
        (.str "user-2") sampleKeyprint).result
      = .ok (.obj [("match_", .bool false), ("similarity", .num (.fin 0))]) ∧
    ∃ (m : Bool) (x : JsNumber),
      (verifyKeyprint
          (respondWith (.obj [("match_", .bool false), ("similarity", .str "NaN-ish")]))
          (.str "user-2") sampleKeyprint).result
        = .ok (.obj [("match_", .bool m), ("similarity", .num x)]) ∧
      x ≠ .nan :=
  ⟨rfl, rfl,
    (C10_similarity_defaults_to_zero
      (respondWith (.obj [("match_", .bool false), ("similarity", .str "NaN-ish")]))
      (.str "user-2") sampleKeyprint 200
      (.obj [("match_", .bool false), ("similarity", .str "NaN-ish")]) rfl rfl ⟨rfl, rfl⟩).1.elim
      fun m hm => hm.elim fun x hx => ⟨m, x, hx.1, hx.2.1⟩⟩

/-! ## The inner try block -/

theorem apiError_ne_timeout (status : Nat) :
    newError ("API error: " ++ toString status) ≠ newError "Request timed out" := by
  intro h
  have hm : ("API error: " ++ toString status) = "Request timed out" := by
    simpa [newError] using h
  have hd := congrArg String.data hm
  rw [String.data_append] at hd
  simp at hd

theorem storeKeyprint_result (fetch : Request → FetchOutcome) (userId keyprint : JsVal)
    (hvalid : validateInput userId keyprint = none) :
    (storeKeyprint fetch userId keyprint).result
      = catchFetchError
          (tryBlock (fetch (postRequest "/api/store-keyprint" (requestBody userId keyprint)))
            (fun data => data) "Unexpected response format") := by
  unfold storeKeyprint tryBlock
  rw [hvalid]

theorem verifyKeyprint_result (fetch : Request → FetchOutcome) (userId keyprint : JsVal)
    (hvalid : validateInput userId keyprint = none) :
    (verifyKeyprint fetch userId keyprint).result
      = catchFetchError
          (tryBlock (fetch (postRequest "/api/verify-keyprint" (requestBody userId keyprint)))
            (fun data => normalize (resultData data)) "Invalid API response format") := by
  unfold verifyKeyprint tryBlock
  rw [hvalid]

theorem catch_abort (outcome : FetchOutcome) (onData : JsVal → JsVal) (msg : String)
    (e : JsError) (hf : fetchFailure outcome = some e) (hname : e.name = "AbortError") :
    catchFetchError (tryBlock outcome onData msg) = .error (newError "Request timed out") := by
  cases outcome with
  | rejected e0 =>
    simp only [fetchFailure, Option.some.injEq] at hf
    subst hf
    simp [tryBlock, catchFetchError, hname]
  | response ok status json =>
    cases ok <;> cases json <;> simp [fetchFailure] at hf
    subst hf
    simp [tryBlock, catchFetchError, hname]

theorem catch_other (outcome : FetchOutcome) (onData : JsVal → JsVal) (msg : String)
    (e : JsError) (hf : fetchFailure outcome = some e) (hname : e.name ≠ "AbortError") :
    catchFetchError (tryBlock outcome onData msg) = .error e := by
  cases outcome with
  | rejected e0 =>
    simp only [fetchFailure, Option.some.injEq] at hf
    subst hf
    simp [tryBlock, catchFetchError, hname]
  | response ok status json =>
    cases ok <;> cases json <;> simp [fetchFailure] at hf
    subst hf
    simp [tryBlock, catchFetchError, hname]

theorem catch_not_ok (status : Nat) (json : Except JsError JsVal) (onData : JsVal → JsVal)
    (msg : String) :
    catchFetchError (tryBlock (.response false status json) onData msg)
      = .error (newError ("API error: " ++ toString status)) := by
  simp [tryBlock, catchFetchError, newError]

theorem catch_timeout_iff (outcome : FetchOutcome) (onData : JsVal → JsVal) (msg : String)
    (hmsg : msg ≠ "Request timed out")
    (hown : ∀ e, fetchFailure outcome = some e → e ≠ newError "Request timed out") :
    catchFetchError (tryBlock outcome onData msg) = .error (newError "Request timed out") ↔
      ∃ e, fetchFailure outcome = some e ∧ e.name = "AbortError" := by
  constructor
  · intro hres
    by_contra hno
    push_neg at hno
    cases outcome with
    | rejected e0 =>
      have hn := hno e0 rfl
      rw [catch_other (.rejected e0) onData msg e0 rfl hn] at hres
      exact hown e0 rfl (by simpa using hres)
    | response ok status json =>
      cases ok with
      | false =>
        rw [catch_not_ok] at hres
        exact apiError_ne_timeout status (by simpa using hres)
      | true =>
        cases json with
        | error e0 =>
          have hn := hno e0 rfl
          rw [catch_other (.response true status (.error e0)) onData msg e0 rfl hn] at hres
          exact hown e0 rfl (by simpa using hres)
        | ok data =>
          by_cases hd : (truthy data && typeof data == "object") = true
          · simp [tryBlock, catchFetchError, hd] at hres
          · simp [tryBlock, catchFetchError, hd, newError] at hres
            exact hmsg hres
  · rintro ⟨e, hf, hname⟩
    exact catch_abort outcome onData msg e hf hname


theorem resultData_of_truthy (data : JsVal) (h : truthy (getProp data "data") = true) :
    resultData data = getProp data "data" := by
  simp [resultData, h]

theorem resultData_of_falsy (data : JsVal) (h : truthy (getProp data "data") = false) :
    resultData data = data := by
  simp [resultData, h]


/-! ## Claims about the client, continued -/

/-- C11 fails as stated: the responses `{data: null, match_: true, similarity: 0.5}`
and `{data: false, match_: true, similarity: 0.5}` have a `data` field, and the
result `{match_: true, similarity: 0.5}` is read from the top level, not from
the value of that field. -/
theorem C11_falsy_data_reads_top_level :
    (verifyKeyprint (respondWith nullDataResponse) (.str "user-1") sampleKeyprint).result
      = .ok (.obj [("match_", .bool true), ("similarity", .num (.fin (1 / 2)))]) ∧
    getProp nullDataResponse "data" = .null ∧
    (verifyKeyprint (respondWith falseDataResponse) (.str "user-1") sampleKeyprint).result
      = .ok (.obj [("match_", .bool true), ("similarity", .num (.fin (1 / 2)))]) ∧
    getProp falseDataResponse "data" = .bool false ∧
    normalize (getProp falseDataResponse "data")
      = .obj [("match_", .bool false), ("similarity", .num (.fin 0))] ∧
    (verifyKeyprint (respondWith falseDataResponse) (.str "user-1") sampleKeyprint).result
      ≠ .ok (normalize (getProp falseDataResponse "data")) := by
  refine ⟨rfl, rfl, rfl, rfl, rfl, ?_⟩
  have h1 : (verifyKeyprint (respondWith falseDataResponse) (.str "user-1") sampleKeyprint).result
      = .ok (.obj [("match_", .bool true), ("similarity", .num (.fin (1 / 2)))]) := rfl
  have h2 : normalize (getProp falseDataResponse "data")
      = .obj [("match_", .bool false), ("similarity", .num (.fin 0))] := rfl
  rw [h1, h2]
  simp

/-- C11 as amended: for every valid input and every response with ok status
whose body is a JSON object, when the body's `data` field is truthy the result
is read from the value of that field and not from the top level (so a body
`{data: p, ...}` with `p` a JSON object gives the result of `p`'s own fields,
whatever `p` contains); when the `data` field is falsy, in particular when the
body has no `data` field, the result is read from the top level. -/
theorem C11_unwraps_truthy_data (fetch : Request → FetchOutcome) (userId keyprint : JsVal)
    (status : Nat) (data : JsVal)
    (hvalid : validateInput userId keyprint = none)
    (hfetch : fetch (postRequest "/api/verify-keyprint" (requestBody userId keyprint))
      = .response true status (.ok data))
    (hobj : truthy data = true ∧ typeof data = "object") :
    (truthy (getProp data "data") = true →
      (verifyKeyprint fetch userId keyprint).result = .ok (normalize (getProp data "data"))) ∧
    (∀ (p rest : List (String × JsVal)), data = .obj (("data", .obj p) :: rest) →
      (verifyKeyprint fetch userId keyprint).result = .ok (normalize (.obj p))) ∧
    (truthy (getProp data "data") = false →
      (verifyKeyprint fetch userId keyprint).result = .ok (normalize data)) ∧
    (∀ fields : List (String × JsVal), data = .obj fields → fields.lookup "data" = none →
      (verifyKeyprint fetch userId keyprint).result = .ok (normalize data)) := by
  have hres := verifyKeyprint_result_of_ok fetch userId keyprint status data hvalid hfetch hobj
  refine ⟨?_, ?_, ?_, ?_⟩
  · intro h
    rw [hres, resultData_of_truthy data h]
  · intro p rest hd
    have hp : getProp data "data" = .obj p := by
      rw [hd]; simp [getProp, List.lookup]
    rw [hres, resultData_of_truthy data (by rw [hp]; rfl), hp]
  · intro h
    rw [hres, resultData_of_falsy data h]
  · intro fields hd hl
    have hp : getProp data "data" = .undefined := by
      rw [hd]; simp [getProp, hl]
    rw [hres, resultData_of_falsy data (by rw [hp]; rfl)]

/-- An instance of the amended C11: the scenario response, whose `data` field is
an object. -/
theorem C11_unwraps_truthy_data_witness :
    validateInput (.str "user-3") sampleKeyprint = none ∧
    (verifyKeyprint (respondWith scenarioResponse) (.str "user-3") sampleKeyprint).result
      = .ok (normalize (getProp scenarioResponse "data")) :=
  ⟨rfl, (C11_unwraps_truthy_data (respondWith scenarioResponse) (.str "user-3") sampleKeyprint
    200 scenarioResponse rfl rfl ⟨rfl, rfl⟩).1 rfl⟩

/-- C12: for every call of `storeKeyprint` or `verifyKeyprint` with valid input,
a failure of `fetch` or of the body read that is an `AbortError` makes the call
fail with `Request timed out`; a failure with any other name is propagated
unchanged, and a non-ok status gives `API error: <status>`.  Whenever the
failure's own error is not itself the value `Error('Request timed out')`, the
call fails with `Request timed out` if and only if the failure is an
`AbortError`. -/
theorem C12_timeout_iff_abort (fetch : Request → FetchOutcome) (userId keyprint : JsVal)
    (hvalid : validateInput userId keyprint = none) :
    ((∀ e, fetchFailure (fetch (postRequest "/api/store-keyprint" (requestBody userId keyprint)))
          = some e → e.name = "AbortError" →
        (storeKeyprint fetch userId keyprint).result = .error (newError "Request timed out")) ∧
     (∀ e, fetchFailure (fetch (postRequest "/api/store-keyprint" (requestBody userId keyprint)))
          = some e → e.name ≠ "AbortError" →
        (storeKeyprint fetch userId keyprint).result = .error e) ∧
     (∀ status json,
        fetch (postRequest "/api/store-keyprint" (requestBody userId keyprint))
          = .response false status json →
        (storeKeyprint fetch userId keyprint).result
          = .error (newError ("API error: " ++ toString status))) ∧
     ((∀ e, fetchFailure (fetch (postRequest "/api/store-keyprint" (requestBody userId keyprint)))
          = some e → e ≠ newError "Request timed out") →
        ((storeKeyprint fetch userId keyprint).result = .error (newError "Request timed out") ↔
          ∃ e, fetchFailure (fetch (postRequest "/api/store-keyprint"
                (requestBody userId keyprint))) = some e ∧ e.name = "AbortError"))) ∧
    ((∀ e, fetchFailure (fetch (postRequest "/api/verify-keyprint" (requestBody userId keyprint)))
          = some e → e.name = "AbortError" →
        (verifyKeyprint fetch userId keyprint).result = .error (newError "Request timed out")) ∧
     (∀ e, fetchFailure (fetch (postRequest "/api/verify-keyprint" (requestBody userId keyprint)))
          = some e → e.name ≠ "AbortError" →
        (verifyKeyprint fetch userId keyprint).result = .error e) ∧
     (∀ status json,
        fetch (postRequest "/api/verify-keyprint" (requestBody userId keyprint))
          = .response false status json →
        (verifyKeyprint fetch userId keyprint).result
          = .error (newError ("API error: " ++ toString status))) ∧
     ((∀ e, fetchFailure (fetch (postRequest "/api/verify-keyprint" (requestBody userId keyprint)))
          = some e → e ≠ newError "Request timed out") →
        ((verifyKeyprint fetch userId keyprint).result = .error (newError "Request timed out") ↔
          ∃ e, fetchFailure (fetch (postRequest "/api/verify-keyprint"
                (requestBody userId keyprint))) = some e ∧ e.name = "AbortError"))) := by
  rw [storeKeyprint_result fetch userId keyprint hvalid,
    verifyKeyprint_result fetch userId keyprint hvalid]
  refine ⟨⟨?_, ?_, ?_, ?_⟩, ⟨?_, ?_, ?_, ?_⟩⟩
  · intro e hf hn
    exact catch_abort _ _ _ e hf hn
  · intro e hf hn
    exact catch_other _ _ _ e hf hn
  · intro status json hf
    rw [hf, catch_not_ok]
  · intro hown
    exact catch_timeout_iff _ _ _ (by decide) hown
  · intro e hf hn
    exact catch_abort _ _ _ e hf hn
  · intro e hf hn
    exact catch_other _ _ _ e hf hn
  · intro status json hf
    rw [hf, catch_not_ok]
  · intro hown
    exact catch_timeout_iff _ _ _ (by decide) hown

/-- An instance of C12: a valid `storeKeyprint` call whose request is aborted
fails with `Request timed out`. -/
theorem C12_timeout_iff_abort_witness :
    validateInput (.str "user-1") sampleKeyprint = none ∧
    (storeKeyprint abortingFetch (.str "user-1") sampleKeyprint).result
      = .error (newError "Request timed out") :=
  ⟨rfl, (C12_timeout_iff_abort abortingFetch (.str "user-1") sampleKeyprint rfl).1.1
    { name := "AbortError", message := "The user aborted a request." } rfl rfl⟩

/-- C13: for every non-empty `userId` string and every snapshot
`{intervals, duration, backspaceCount}` with a non-empty array of numbers as
`intervals`, the request body built by `storeKeyprint`, and identically by
`verifyKeyprint`, is `{user_id: userId, keyprint: {intervals, duration,
backspace_count: backspaceCount}}`, sent to the store and to the verify
endpoint. -/
theorem C13_request_body (fetch : Request → FetchOutcome) (u : String) (ivs : List JsNumber)
    (duration backspaceCount : JsNumber) (hu : u ≠ "") (hivs : ivs ≠ []) :
    (storeKeyprint fetch (.str u)
        (.obj [("intervals", .arr (ivs.map .num)), ("duration", .num duration),
               ("backspaceCount", .num backspaceCount)])).requests.map Request.body
      = [.obj [("user_id", .str u),
               ("keyprint", .obj [("intervals", .arr (ivs.map .num)),
                                  ("duration", .num duration),
                                  ("backspace_count", .num backspaceCount)])]] ∧
    (verifyKeyprint fetch (.str u)
        (.obj [("intervals", .arr (ivs.map .num)), ("duration", .num duration),
               ("backspaceCount", .num backspaceCount)])).requests.map Request.body
      = [.obj [("user_id", .str u),
               ("keyprint", .obj [("intervals", .arr (ivs.map .num)),
                                  ("duration", .num duration),
                                  ("backspace_count", .num backspaceCount)])]] ∧
    (storeKeyprint fetch (.str u)
        (.obj [("intervals", .arr (ivs.map .num)), ("duration", .num duration),
               ("backspaceCount", .num backspaceCount)])).requests.map Request.url
      = ["http://127.0.0.1:8080/api/store-keyprint"] ∧
    (verifyKeyprint fetch (.str u)
        (.obj [("intervals", .arr (ivs.map .num)), ("duration", .num duration),
               ("backspaceCount", .num backspaceCount)])).requests.map Request.url
      = ["http://127.0.0.1:8080/api/verify-keyprint"] := by
  have hvalid : validateInput (.str u)
      (.obj [("intervals", .arr (ivs.map .num)), ("duration", .num duration),
             ("backspaceCount", .num backspaceCount)]) = none := by
    rw [validateInput_eq_none_iff]
    refine ⟨by simp [truthy, hu], rfl, ?_⟩
    cases ivs with
    | nil => exact absurd rfl hivs
    | cons x xs => exact ⟨.num x, xs.map .num, rfl⟩
  rw [storeKeyprint_requests, verifyKeyprint_requests, hvalid]
  refine ⟨rfl, rfl, ?_, ?_⟩
  · simp [postRequest, API_BASE_URL]
  · simp [postRequest, API_BASE_URL]

/-- An instance of C13: user `alice`, intervals `[100, 120]`, duration 220, no
backspace. -/
theorem C13_request_body_witness :
    ("alice" ≠ "" ∧ [JsNumber.fin 100, JsNumber.fin 120] ≠ []) ∧
    (storeKeyprint abortingFetch (.str "alice")
        (.obj [("intervals", .arr ([JsNumber.fin 100, JsNumber.fin 120].map .num)),
               ("duration", .num (.fin 220)), ("backspaceCount", .num (.fin 0))])).requests.map
        Request.body
      = [.obj [("user_id", .str "alice"),
               ("keyprint", .obj [("intervals", .arr ([JsNumber.fin 100, JsNumber.fin 120].map .num)),
                                  ("duration", .num (.fin 220)),
                                  ("backspace_count", .num (.fin 0))])]] :=
  ⟨⟨by decide, by simp⟩,
    (C13_request_body abortingFetch "alice" [JsNumber.fin 100, JsNumber.fin 120]
      (.fin 220) (.fin 0) (by decide) (by simp)).1⟩

end Api

namespace TypingTracker

/-! ## Reachable states -/


theorem runCalls_concat (s : Tracker) (calls : List Call) (c : Call) :
    runCalls s (calls ++ [c]) = step (runCalls s calls) c := by
  simp [runCalls, List.foldl_append]

theorem newInterval_length (keyTimes : List Int) (t : Int) :
    (newInterval keyTimes t).length = if keyTimes = [] then 0 else 1 := by
  unfold newInterval
  cases h : keyTimes.getLast? with
  | none =>
    have : keyTimes = [] := List.getLast?_eq_none_iff.mp h
    simp [this]
  | some l =>
    have : keyTimes ≠ [] := by
      intro hnil; rw [hnil] at h; simp at h
    simp [this]

theorem step_intervals_length (s : Tracker) (c : Call)
    (h : s.intervals.length = s.keyTimes.length - 1) :
    (step s c).intervals.length = (step s c).keyTimes.length - 1 := by
  cases c with
  | reset => rfl
  | keyPress event t =>
    simp only [step, handleKeyPress_intervals, handleKeyPress_keyTimes, List.length_append,
      newInterval_length, List.length_singleton]
    by_cases hk : s.keyTimes = []
    · simp [hk] at h ⊢
      exact h
    · have hpos : 0 < s.keyTimes.length := List.length_pos.mpr hk
      simp only [hk, if_false]
      omega

theorem runCalls_intervals_length (calls : List Call) :
    (runCalls useTypingTracker calls).intervals.length
      = (runCalls useTypingTracker calls).keyTimes.length - 1 := by
  induction calls using List.reverseRecOn with
  | nil => rfl
  | append_singleton calls c ih =>
    rw [runCalls_concat]
    exact step_intervals_length _ c ih

theorem step_anomaliesOk (s : Tracker) (c : Call) (h : AnomaliesOk s) : AnomaliesOk (step s c) := by
  cases c with
  | reset => exact ⟨List.sorted_nil, by simp [step, resetTracking]⟩
  | keyPress event t =>
    obtain ⟨hs, hb⟩ := h
    unfold AnomaliesOk
    simp only [step, handleKeyPress_intervals, handleKeyPress_anomalies]
    cases hl : s.keyTimes.getLast? with
    | none =>
      simp only
      exact ⟨hs, fun i hi => ⟨(hb i hi).1, by
        have := (hb i hi).2
        simp only [List.length_append]; omega⟩⟩
    | some l =>
      have hni : newInterval s.keyTimes t = [t - l] := by simp [newInterval, hl]
      simp only [hni, List.length_append, List.length_singleton]
      split
      · next hc =>
        constructor
        · unfold List.Sorted
          rw [List.pairwise_append]
          refine ⟨hs, List.pairwise_singleton _ _, ?_⟩
          intro a ha b hb2
          simp only [List.mem_singleton] at hb2
          subst hb2
          exact (hb a ha).2
        · intro i hi
          rcases List.mem_append.mp hi with hi | hi
          · exact ⟨(hb i hi).1, by have := (hb i hi).2; omega⟩
          · simp only [List.mem_singleton] at hi
            subst hi
            exact ⟨by omega, by omega⟩
      · exact ⟨hs, fun i hi => ⟨(hb i hi).1, by have := (hb i hi).2; omega⟩⟩

theorem runCalls_anomaliesOk (calls : List Call) : AnomaliesOk (runCalls useTypingTracker calls) := by
  induction calls using List.reverseRecOn with
  | nil => exact ⟨List.sorted_nil, by simp [runCalls, useTypingTracker]⟩
  | append_singleton calls c ih =>
    rw [runCalls_concat]
    exact step_anomaliesOk _ c ih

/-! ## The call of detectAnomalies -/


theorem detectAnomaliesCall_eq (s : Tracker) (event : KeyEvent) (t : Int) (s5 : Tracker)
    (h : detectAnomaliesCall s event t = some s5) :
    4 ≤ s5.intervals.length ∧ 3 ≤ s5.intervals.dropLast.length ∧
    (∃ avg, average s5.intervals.dropLast = some avg) ∧
    handleKeyPress s event t
      = { detectAnomalies s5 with keyTimes := (detectAnomalies s5).keyTimes ++ [t] } := by
  unfold detectAnomaliesCall at h
  unfold handleKeyPress
  cases hl : s.keyTimes.getLast? <;> by_cases hf : isFalsy s.startTime = true <;>
    by_cases hk : event.key = "Backspace" <;> simp [hl, hf, hk] at h ⊢ <;>
    (obtain ⟨h3, rfl⟩ := h
     simp [h3, average]
     refine ⟨by omega, fun hnil => ?_⟩
     rw [hnil] at h3
     simp at h3)

theorem detectAnomaliesCall_none (s : Tracker) (event : KeyEvent) (t : Int)
    (h : detectAnomaliesCall s event t = none) :
    (handleKeyPress s event t).anomalies = s.anomalies := by
  rw [handleKeyPress_anomalies]
  unfold detectAnomaliesCall at h
  cases hl : s.keyTimes.getLast? <;> by_cases hf : isFalsy s.startTime = true <;>
    by_cases hk : event.key = "Backspace" <;> simp [hl, hf, hk] at h ⊢ <;>
    (intro h3; omega)


/-! ## Start, end and duration -/


theorem pressAll_startTime_of_set (s : Tracker) (evs : List (KeyEvent × Int))
    (h : isFalsy s.startTime = false) : (pressAll s evs).startTime = s.startTime := by
  induction evs generalizing s with
  | nil => rfl
  | cons e evs ih =>
    have hstep : (handleKeyPress s e.1 e.2).startTime = s.startTime := by
      rw [handleKeyPress_startTime]; simp [h]
    rw [pressAll_cons, ih _ (by rw [hstep]; exact h), hstep]

theorem pressAll_startTime_fresh (e : KeyEvent × Int) (evs : List (KeyEvent × Int))
    (h : e.2 ≠ 0) : (pressAll useTypingTracker (e :: evs)).startTime = some e.2 := by
  have hstep : (handleKeyPress useTypingTracker e.1 e.2).startTime = some e.2 := by
    rw [handleKeyPress_startTime]; simp [useTypingTracker, isFalsy]
  rw [pressAll_cons, pressAll_startTime_of_set _ _ (by rw [hstep]; simpa [isFalsy] using h), hstep]

theorem pressAll_endTime (s : Tracker) (evs : List (KeyEvent × Int)) (h : evs ≠ []) :
    (pressAll s evs).endTime = (evs.map Prod.snd).getLast? := by
  induction evs using List.reverseRecOn with
  | nil => exact absurd rfl h
  | append_singleton evs e _ =>
    rw [pressAll_concat, handleKeyPress_endTime]
    simp

theorem gaps_cons_cons (a b : Int) (rest : List Int) :
    gaps (a :: b :: rest) = (b - a) :: gaps (b :: rest) := by
  simp [gaps]

theorem gaps_sum (ts : List Int) :
    (gaps ts).sum = ts.getLast?.getD 0 - ts.head?.getD 0 := by
  induction ts with
  | nil => simp [gaps]
  | cons a rest ih =>
    cases rest with
    | nil => simp [gaps]
    | cons b rest2 =>
      rw [gaps_cons_cons, List.sum_cons, ih, List.getLast?_cons_cons]
      simp

theorem gaps_nonneg (ts : List Int) (h : ts.Sorted (· ≤ ·)) : ∀ x ∈ gaps ts, 0 ≤ x := by
  induction ts with
  | nil => simp [gaps]
  | cons a rest ih =>
    cases rest with
    | nil => simp [gaps]
    | cons b rest2 =>
      intro x hx
      rw [gaps_cons_cons] at hx
      have hab : a ≤ b := List.rel_of_sorted_cons h b (List.mem_cons_self _ _)
      rcases List.mem_cons.mp hx with hx | hx
      · rw [hx]; omega
      · exact ih (List.Sorted.of_cons h) x hx


/-! ## Claims about the tracker, continued -/

/-- C14: in every state reachable from a fresh tracker by any sequence of
`handleKeyPress` and `resetTracking` calls, with arbitrary clock readings, if at
least one key sample is recorded then `len(intervals) = len(keyTimes) - 1`, and
if none is recorded then `intervals` is empty. -/
theorem C14_intervals_one_less_than_keyTimes (calls : List Call) :
    ((runCalls useTypingTracker calls).keyTimes ≠ [] →
      (runCalls useTypingTracker calls).intervals.length
        = (runCalls useTypingTracker calls).keyTimes.length - 1 ∧
      (runCalls useTypingTracker calls).intervals.length + 1
        = (runCalls useTypingTracker calls).keyTimes.length) ∧
    ((runCalls useTypingTracker calls).keyTimes = [] →
      (runCalls useTypingTracker calls).intervals = []) := by
  have h := runCalls_intervals_length calls
  constructor
  · intro hne
    have hpos : 0 < (runCalls useTypingTracker calls).keyTimes.length := List.length_pos.mpr hne
    exact ⟨h, by omega⟩
  · intro hnil
    rw [hnil] at h
    exact List.length_eq_zero.mp (by simpa using h)



/-- C15, evaluated where the code departs from it: after key presses at 0 and
100 ms the claim gives `startTime = 0` after both calls; the code sets
`startTime` to 0 on the first call and, the stored 0 being falsy on line 30,
sets it again, to 100, on the second.  `endTime` is the latest reading after
each call. -/
theorem C15_startTime_set_again_after_zero :
    (pressAll useTypingTracker [(⟨"a"⟩, 0)]).startTime = some 0 ∧
    (pressAll useTypingTracker [(⟨"a"⟩, 0), (⟨"b"⟩, 100)]).startTime = some 100 ∧
    (pressAll useTypingTracker [(⟨"a"⟩, 0), (⟨"b"⟩, 100)]).startTime ≠ some 0 ∧
    (pressAll useTypingTracker [(⟨"a"⟩, 0)]).endTime = some 0 ∧
    (pressAll useTypingTracker [(⟨"a"⟩, 0), (⟨"b"⟩, 100)]).endTime = some 100 := by
  decide

/-- C16: for every tracker state and every key press, whenever line 50 calls
`detectAnomalies` the `intervals` sequence it sees holds at least 4 entries, so
`prevIntervals`, whose length is the divisor of the mean, has at least 3 and the
mean is a number; the rest of the key press is that call followed by line 55.
When line 50 is not reached, `anomalies` is left as it was.  The fifth key press
of the scenario reaches line 50. -/
theorem C16_detectAnomalies_divisor_at_least_three (s : Tracker) (event : KeyEvent) (t : Int) :
    (∀ s5 : Tracker, detectAnomaliesCall s event t = some s5 →
      4 ≤ s5.intervals.length ∧ 3 ≤ s5.intervals.dropLast.length ∧
      (∃ avg, average s5.intervals.dropLast = some avg) ∧
      handleKeyPress s event t
        = { detectAnomalies s5 with keyTimes := (detectAnomalies s5).keyTimes ++ [t] }) ∧
    (detectAnomaliesCall s event t = none → (handleKeyPress s event t).anomalies = s.anomalies) ∧
    detectAnomaliesCall (Tracker.mk [100, 100, 100] [] [0, 100, 200, 300] 0 (some 100) (some 300))
        ⟨"e"⟩ 900
      = some (Tracker.mk [100, 100, 100, 600] [] [0, 100, 200, 300] 0 (some 100) (some 900)) :=
  ⟨fun s5 h => detectAnomaliesCall_eq s event t s5 h,
   fun h => detectAnomaliesCall_none s event t h, by decide⟩

/-- C17: in every state reachable from a fresh tracker by any sequence of
`handleKeyPress` and `resetTracking` calls, `anomalies` is strictly increasing,
hence free of duplicates, and each entry i satisfies `3 <= i < len(intervals)`. -/
theorem C17_anomalies_increasing_and_in_range (calls : List Call) :
    (runCalls useTypingTracker calls).anomalies.Sorted (· < ·) ∧
    (runCalls useTypingTracker calls).anomalies.Nodup ∧
    ∀ i ∈ (runCalls useTypingTracker calls).anomalies,
      3 ≤ i ∧ i < (runCalls useTypingTracker calls).intervals.length := by
  obtain ⟨hs, hb⟩ := runCalls_anomaliesOk calls
  exact ⟨hs, hs.nodup, hb⟩

/-- C18: for every tracker state and every key press, `keyTimes`, `intervals`
and `anomalies` before the call are prefixes of those after it; `keyTimes`
grows by exactly one entry, `intervals` by at most one, and `anomalies` either
stays as it was or gains one entry, the index of the interval that this call
appended. -/
theorem C18_handleKeyPress_appends_only (s : Tracker) (event : KeyEvent) (t : Int) :
    (handleKeyPress s event t).keyTimes = s.keyTimes ++ [t] ∧
    s.keyTimes <+: (handleKeyPress s event t).keyTimes ∧
    (handleKeyPress s event t).keyTimes.length = s.keyTimes.length + 1 ∧
    s.intervals <+: (handleKeyPress s event t).intervals ∧
    (handleKeyPress s event t).intervals.length ≤ s.intervals.length + 1 ∧
    s.anomalies <+: (handleKeyPress s event t).anomalies ∧
    ((handleKeyPress s event t).anomalies = s.anomalies ∨
      ((handleKeyPress s event t).anomalies = s.anomalies ++ [s.intervals.length] ∧
       (handleKeyPress s event t).intervals.length = s.intervals.length + 1)) := by
  have hlen : (handleKeyPress s event t).intervals.length ≤ s.intervals.length + 1 := by
    rw [handleKeyPress_intervals, List.length_append, newInterval_length]
    split <;> omega
  have han : (handleKeyPress s event t).anomalies = s.anomalies ∨
      ((handleKeyPress s event t).anomalies = s.anomalies ++ [s.intervals.length] ∧
       (handleKeyPress s event t).intervals.length = s.intervals.length + 1) := by
    rw [handleKeyPress_anomalies, handleKeyPress_intervals]
    cases hl : s.keyTimes.getLast? with
    | none => left; rfl
    | some l =>
      simp only
      split
      · right; exact ⟨rfl, by simp [newInterval, hl]⟩
      · left; rfl
  refine ⟨handleKeyPress_keyTimes s event t, ?_, ?_, ?_, hlen, ?_, han⟩
  · rw [handleKeyPress_keyTimes]; exact List.prefix_append _ _
  · rw [handleKeyPress_keyTimes]; simp
  · rw [handleKeyPress_intervals]; exact List.prefix_append _ _
  · rcases han with h | ⟨h, _⟩
    · rw [h]
    · rw [h]; exact List.prefix_append _ _

/-- C19: starting from a fresh tracker, after N >= 1 key presses whose clock
readings are strictly positive and non-decreasing, every interval is
non-negative and the sum of the intervals equals `duration`, both being
`tN - t1`; the `intervals` and `duration` of the snapshot agree. -/
theorem C19_intervals_sum_to_duration (evs : List (KeyEvent × Int))
    (hN : 1 ≤ evs.length)
    (hpos : ∀ t ∈ evs.map Prod.snd, 0 < t)
    (hmono : (evs.map Prod.snd).Sorted (· ≤ ·)) :
    (∀ x ∈ (pressAll useTypingTracker evs).intervals, 0 ≤ x) ∧
    (pressAll useTypingTracker evs).intervals.sum = duration (pressAll useTypingTracker evs) ∧
    duration (pressAll useTypingTracker evs)
      = (evs.map Prod.snd).getLast?.getD 0 - (evs.map Prod.snd).head?.getD 0 ∧
    (metricsJson (pressAll useTypingTracker evs)).intervals.sum
      = (metricsJson (pressAll useTypingTracker evs)).duration := by
  have hdur : duration (pressAll useTypingTracker evs)
      = (evs.map Prod.snd).getLast?.getD 0 - (evs.map Prod.snd).head?.getD 0 := by
    cases evs with
    | nil => simp at hN
    | cons e rest =>
      have he : 0 < e.2 := hpos e.2 (by simp)
      have hst := pressAll_startTime_fresh e rest (by omega)
      have hen := pressAll_endTime useTypingTracker (e :: rest) (by simp)
      obtain ⟨l, hl⟩ : ∃ l, ((e :: rest).map Prod.snd).getLast? = some l := by
        cases hg : ((e :: rest).map Prod.snd).getLast? with
        | none => simp at hg
        | some l => exact ⟨l, rfl⟩
      have hlpos : 0 < l := hpos l (List.mem_of_getLast?_eq_some hl)
      rw [hl] at hen
      unfold duration
      rw [hst, hen, hl]
      have h1 : isFalsy (some e.2) = false := by simp [isFalsy]; omega
      have h2 : isFalsy (some l) = false := by simp [isFalsy]; omega
      simp [h1, h2]
  have hsum : (pressAll useTypingTracker evs).intervals.sum
      = duration (pressAll useTypingTracker evs) := by
    rw [hdur, pressAll_intervals, gaps_sum]
  refine ⟨?_, hsum, hdur, ?_⟩
  · rw [pressAll_intervals]
    exact gaps_nonneg _ hmono
  · exact hsum

/-- An instance of C19: key presses at 1000, 1100 and 1350 ms. -/
theorem C19_intervals_sum_to_duration_witness :
    (pressAll useTypingTracker [(⟨"a"⟩, 1000), (⟨"b"⟩, 1100), (⟨"c"⟩, 1350)]).intervals.sum
      = duration (pressAll useTypingTracker [(⟨"a"⟩, 1000), (⟨"b"⟩, 1100), (⟨"c"⟩, 1350)]) ∧
    duration (pressAll useTypingTracker [(⟨"a"⟩, 1000), (⟨"b"⟩, 1100), (⟨"c"⟩, 1350)]) = 350 :=
  ⟨(C19_intervals_sum_to_duration [(⟨"a"⟩, 1000), (⟨"b"⟩, 1100), (⟨"c"⟩, 1350)]
      (by decide) (by decide) (by decide)).2.1,
   by decide⟩

end TypingTracker
